import Mathlib

/-!
Verification development for the infoblox-client object model
(`infoblox_client/objects.py`): the field-schema engine with alias
remapping, the resource CRUD/search protocol, version dispatch between
IPv4/IPv6 variants, and the sub-object encoders.
-/

set_option maxHeartbeats 1000000

/-- Concrete `SubObjects` subclasses of the source: the `IP` base class,
its `IPv4`/`IPv6` leaves, and `AnyMember`. -/
inductive SubCls where
  | ipBase : SubCls
  | ipv4 : SubCls
  | ipv6 : SubCls
  | anyMember : SubCls
  deriving DecidableEq, Repr

/-- A Python runtime value as it appears in this library's payloads:
None, strings, ints, bools, lists, tuples, dicts (ordered association
lists keyed by strings, modelling Python dict insertion order), and
sub-object instances (a `SubObjects` subclass tag together with the
instance's attribute dictionary `__dict__`). -/
inductive PyVal where
  | pyNone : PyVal
  | pyStr : String → PyVal
  | pyInt : Int → PyVal
  | pyBool : Bool → PyVal
  | pyList : List PyVal → PyVal
  | pyTuple : List PyVal → PyVal
  | pyDict : List (String × PyVal) → PyVal
  | pySub : SubCls → List (String × PyVal) → PyVal
  deriving Repr

/-- Exceptions reachable from the modelled code paths.
`infobloxCannotDeleteObject`, `hostRecordNotPresent` and
`infobloxInvalidIp` come from the `infoblox_client.exceptions` module,
which is not under src/; they are modelled from the spec's error
taxonomy (§7).  `otherConnectorError` stands for any further condition a
connector call may raise (transport failures, remote validation errors,
and so on), indexed so that distinct conditions stay distinguishable. -/
inductive PyErr where
  | valueError : String → PyErr
  | indexError : PyErr
  | attributeError : PyErr
  | keyError : String → PyErr
  | typeError : PyErr
  | infobloxCannotDeleteObject : PyErr
  | hostRecordNotPresent : PyErr
  | infobloxInvalidIp : String → PyErr
  | otherConnectorError : Nat → PyErr
  deriving DecidableEq, Repr

/-- An attribute dictionary / payload dict: insertion-ordered mapping
from string keys to values, as Python's `dict`. -/
abbrev Attrs := List (String × PyVal)

/-- Lookup in an ordered string-keyed association list (Python `d[k]` /
`k in d`, keys are unique by construction). -/
def alLookup {α : Type} (l : List (String × α)) (k : String) : Option α :=
  match l with
  | [] => none
  | (k', v) :: t => if k' = k then some v else alLookup t k

/-- Python `d[k] = v`: replace the existing entry in place, else append
(dict assignment preserves insertion order). -/
def alInsert {α : Type} (k : String) (v : α) (l : List (String × α)) :
    List (String × α) :=
  match l with
  | [] => [(k, v)]
  | (k', v') :: t => if k' = k then (k, v) :: t else (k', v') :: alInsert k v t

/-- Python `k in d`. -/
def alContains {α : Type} (l : List (String × α)) (k : String) : Bool :=
  (alLookup l k).isSome

/-- Python truthiness of a value (`if x:`). -/
def pyTruthy (v : PyVal) : Bool :=
  match v with
  | .pyNone => false
  | .pyStr s => s ≠ ""
  | .pyInt n => n ≠ 0
  | .pyBool b => b
  | .pyList l => !l.isEmpty
  | .pyTuple l => !l.isEmpty
  | .pyDict d => !d.isEmpty
  | .pySub _ _ => true

/-- Python `str(x)` as used by this code.  It is only ever applied to
the `_ip` slot of `IP`/`AnyMember`/`FixedAddress` instances, which in
practice holds an address string or an allocation-token object rendered
to its placeholder string; containers get a coarse rendering. -/
def pyStrOf (v : PyVal) : String :=
  match v with
  | .pyNone => "None"
  | .pyStr s => s
  | .pyInt n => toString n
  | .pyBool b => if b then "True" else "False"
  | .pyList _ => "<list>"
  | .pyTuple _ => "<tuple>"
  | .pyDict _ => "<dict>"
  | .pySub _ _ => "<subobject>"

/-- Occurrence of a character in a character list (Python
`':' in s`). -/
def chContains (l : List Char) (c : Char) : Bool :=
  match l with
  | [] => false
  | c' :: t => c' = c || chContains t c

/-- Modelled from the spec: `ib_utils.determine_ip_version` lives in
`infoblox_client/utils.py`, which is not under src/.  Per §4.3 and the
Glossary, the address family is classified by literal parsing of the
textual address (an IPv6 literal contains a colon); values carrying
their own version tag (IP sub-objects) report it directly, a sequence
is classified by its first element, and anything else defaults to
the IPv4 family. -/
def determine_ip_version (v : PyVal) : Nat :=
  match v with
  | .pyStr s => if chContains s.data ':' then 6 else 4
  | .pySub .ipv4 _ => 4
  | .pySub .ipv6 _ => 6
  | .pyList (x :: _) => determine_ip_version x
  | .pyTuple (x :: _) => determine_ip_version x
  | _ => 4

/-- Modelled from the spec: `ib_utils.generate_duid` is not under src/.
The spec (§4.4, §9) fixes only that the DUID-equivalent token is
derived deterministically from the hardware address in an
externally-mandated byte format, so it is modelled as an opaque
deterministic derivation. -/
def generate_duid (mac : PyVal) : PyVal :=
  .pyStr ("duid-from-" ++ pyStrOf mac)

/-- Modelled from the spec: `ib_utils.is_valid_ip` is not under src/.
Per §7 it is address-parsing validation of a literal: an IPv4 literal
is four dot-separated decimal octets, an IPv6 literal contains a
colon. -/
def is_valid_ip (v : PyVal) : Bool :=
  match v with
  | .pyStr s =>
      if chContains s.data ':' then true
      else
        let parts := s.splitOn "."
        parts.length = 4 &&
          parts.all (fun p => !p.isEmpty && p.all Char.isDigit && (p.toNat?.getD 256) ≤ 255)
  | _ => false

/-- Declared fields (`_fields`) of each `SubObjects` class. -/
def subFields (c : SubCls) : List String :=
  match c with
  | .ipBase => []
  | .ipv4 => ["ipv4addr", "configure_for_dhcp", "host", "mac"]
  | .ipv6 => ["ipv6addr", "configure_for_dhcp", "host", "duid"]
  | .anyMember => ["_struct", "name", "ipv4addr", "ipv6addr"]

/-- Shadow fields (`_shadow_fields`) of each `SubObjects` class
(`IP` declares `['_ref', 'ip']`, inherited by its leaves; `AnyMember`
declares `['ip']`). -/
def subShadow (c : SubCls) : List String :=
  match c with
  | .anyMember => ["ip"]
  | _ => ["_ref", "ip"]

/-- Alias table (`_remap`) of each `SubObjects` class. -/
def subRemap (c : SubCls) : List (String × String) :=
  match c with
  | .ipv4 => [("ipv4addr", "ip")]
  | .ipv6 => [("ipv6addr", "ip")]
  | _ => []

/-- Class name used in the unknown-parameter error message. -/
def subClsName (c : SubCls) : String :=
  match c with
  | .ipBase => "IP"
  | .ipv4 => "IPv4"
  | .ipv6 => "IPv6"
  | .anyMember => "AnyMember"

/-- The `IP.ip` property getter: `str(self._ip)` when the `_ip` slot
exists, otherwise the implicit `None` return. -/
def ipPropGet (attrs : Attrs) : PyVal :=
  match alLookup attrs "_ip" with
  | some w => .pyStr (pyStrOf w)
  | none => .pyNone

/-- Text before the first `'.'` of a string (`s.partition('.')[0]`). -/
def beforeFirstDot (s : String) : String :=
  match s.splitOn "." with
  | [] => s
  | p :: _ => p

/-- Text after the first `'.'` of a string (`s.partition('.')[2]`),
empty when there is no dot. -/
def afterFirstDot (s : String) : String :=
  match s.splitOn "." with
  | [] => ""
  | [_] => ""
  | _ :: rest => String.intercalate "." rest

/-- The `IP.hostname` property: the host name up to the first dot when
`self.host` is a non-None string, `None` when `self.host` is None, and
an AttributeError when the `host` attribute is missing or has no
`partition` method. -/
def hostnameProp (attrs : Attrs) : Except PyErr PyVal :=
  match alLookup attrs "host" with
  | none => .error .attributeError
  | some .pyNone => .ok .pyNone
  | some (.pyStr s) => .ok (.pyStr (beforeFirstDot s))
  | some _ => .error .attributeError

/-- The `IP.zone_auth` property: everything after the first dot of
`self.host` (same error behaviour as `hostnameProp`). -/
def zoneAuthProp (attrs : Attrs) : Except PyErr PyVal :=
  match alLookup attrs "host" with
  | none => .error .attributeError
  | some .pyNone => .ok .pyNone
  | some (.pyStr s) => .ok (.pyStr (afterFirstDot s))
  | some _ => .error .attributeError

/-- Data-descriptor (property) reads of the `SubObjects` classes:
`IP.ip`, `IP.hostname`, `IP.zone_auth` and `AnyMember.ip`.  Returns
`none` when the class has no property of that name. -/
def subPropGet (c : SubCls) (attrs : Attrs) (name : String) :
    Option (Except PyErr PyVal) :=
  match c, name with
  | .anyMember, "ip" => some (.ok (ipPropGet attrs))
  | .anyMember, _ => none
  | _, "ip" => some (.ok (ipPropGet attrs))
  | _, "hostname" => some (hostnameProp attrs)
  | _, "zone_auth" => some (zoneAuthProp attrs)
  | _, _ => none

/-- Data-descriptor (property) writes of the `SubObjects` classes.
`IP.ip` stores into `_ip`; `AnyMember.ip` stores into `_ip` and
additionally fills the `ipv6addr` or `ipv4addr` field matching the
classified family; the getter-only properties reject writes with an
AttributeError.  Returns `none` when the class has no property of that
name. -/
def subPropSet (c : SubCls) (attrs : Attrs) (name : String) (v : PyVal) :
    Option (Except PyErr Attrs) :=
  match c, name with
  | .anyMember, "ip" =>
      some (.ok (if determine_ip_version v = 6 then
                   alInsert "ipv6addr" v (alInsert "_ip" v attrs)
                 else
                   alInsert "ipv4addr" v (alInsert "_ip" v attrs)))
  | .anyMember, _ => none
  | _, "ip" => some (.ok (alInsert "_ip" v attrs))
  | _, "hostname" => some (.error .attributeError)
  | _, "zone_auth" => some (.error .attributeError)
  | _, _ => none

/-- `BaseObject.__setattr__` for a `SubObjects` instance: alias names
are redirected to their canonical field; `object.__setattr__` then
honours data descriptors (properties) before writing the instance
dictionary.  No alias chains occur in any class, so one resolution step
suffices. -/
def subSetAttr (c : SubCls) (attrs : Attrs) (name : String) (v : PyVal) :
    Except PyErr Attrs :=
  let n := match alLookup (subRemap c) name with
           | some f => f
           | none => name
  match subPropSet c attrs n v with
  | some r => r
  | none => .ok (alInsert n v attrs)

/-- Attribute read of a `SubObjects` instance without the
`__getattr__` fallback: property first, then the instance
dictionary. -/
def subGetAttrPlain (c : SubCls) (attrs : Attrs) (name : String) :
    Except PyErr PyVal :=
  match subPropGet c attrs name with
  | some r => r
  | none =>
    match alLookup attrs name with
    | some v => .ok v
    | none => .error .attributeError

/-- Full attribute read of a `SubObjects` instance: when the plain
protocol raises AttributeError, `BaseObject.__getattr__` retries the
aliased canonical field or re-raises.  No alias chains occur in any
class, so one resolution step suffices. -/
def subGetAttr (c : SubCls) (attrs : Attrs) (name : String) :
    Except PyErr PyVal :=
  match subGetAttrPlain c attrs name with
  | .ok v => .ok v
  | .error .attributeError =>
      match alLookup (subRemap c) name with
      | some f => subGetAttrPlain c attrs f
      | none => .error .attributeError
  | .error e => .error e

/-- Python `hasattr` for a `SubObjects` instance. -/
def subHasattr (c : SubCls) (attrs : Attrs) (name : String) : Bool :=
  match subGetAttr c attrs name with
  | .ok _ => true
  | .error _ => false

/-- `BaseObject._remap_fields`: map constructor keyword arguments
through the alias table; a key that is neither an alias, a declared
field nor a shadow field raises the unknown-parameter ValueError.  The
accumulator models the `mapped` dict built in kwargs order. -/
def remapFieldsGo (clsName : String) (remap : List (String × String))
    (fields shadow : List String) (acc : Attrs) (kwargs : Attrs) :
    Except PyErr Attrs :=
  match kwargs with
  | [] => .ok acc
  | (k, v) :: t =>
    match alLookup remap k with
    | some f => remapFieldsGo clsName remap fields shadow (alInsert f v acc) t
    | none =>
      if fields.contains k || shadow.contains k then
        remapFieldsGo clsName remap fields shadow (alInsert k v acc) t
      else
        .error (.valueError ("Unknown parameter " ++ k ++ " for class " ++ clsName))

/-- `BaseObject._remap_fields` entry point. -/
def remapFields (clsName : String) (remap : List (String × String))
    (fields shadow : List String) (kwargs : Attrs) : Except PyErr Attrs :=
  remapFieldsGo clsName remap fields shadow [] kwargs

/-- The `BaseObject.__init__` field loop for a `SubObjects` instance:
supplied fields are assigned through `setattr`, fields not yet present
(per `hasattr`) are initialized to None. -/
def subInitGo (c : SubCls) (mapped : Attrs) (attrs : Attrs)
    (fieldList : List String) : Except PyErr Attrs :=
  match fieldList with
  | [] => .ok attrs
  | f :: fs =>
    match alLookup mapped f with
    | some v =>
      match subSetAttr c attrs f v with
      | .ok a => subInitGo c mapped a fs
      | .error e => .error e
    | none =>
      if subHasattr c attrs f then subInitGo c mapped attrs fs
      else
        match subSetAttr c attrs f .pyNone with
        | .ok a => subInitGo c mapped a fs
        | .error e => .error e

/-- `BaseObject.__init__` for a `SubObjects` instance (also the body of
`SubObjects.from_dict`, which is `cls(**ip_dict)`). -/
def subInit (c : SubCls) (kwargs : Attrs) : Except PyErr Attrs :=
  match remapFields (subClsName c) (subRemap c) (subFields c) (subShadow c) kwargs with
  | .ok mapped => subInitGo c mapped [] (subFields c ++ subShadow c)
  | .error e => .error e

/-- `SubObjects.to_dict`: the declared fields whose current value is
not None, in declaration order. -/
def subToDict (c : SubCls) (attrs : Attrs) : Attrs :=
  (subFields c).filterMap (fun f =>
    match subGetAttr c attrs f with
    | .ok .pyNone => none
    | .ok v => some (f, v)
    | .error _ => none)


/-- Python `isinstance(x, IP)`: true for the `IP` base class and its
`IPv4`/`IPv6` leaves. -/
def isIPInst (v : PyVal) : Bool :=
  match v with
  | .pySub .ipBase _ => true
  | .pySub .ipv4 _ => true
  | .pySub .ipv6 _ => true
  | _ => false

/-- The message of the ValueError raised by `HostRecord._ip_setter`
(the two adjacent source string literals concatenate without a
space). -/
def ipSetterMsg (ips : PyVal) : String :=
  "Invalid format of ip passed in: " ++ pyStrOf ips ++
    ".Should be string or list of NIOS IP objects."

/-- Reading `.ip` of an IP sub-object (`ips[0].ip`), via the `IP.ip`
property. -/
def ipOfSubVal (v : PyVal) : PyVal :=
  match v with
  | .pySub _ a => ipPropGet a
  | _ => .pyNone

/-- `HostRecord._ip_setter(ipaddr_name, ipaddrs_name, ips)`, acting on
the instance dictionary.  A string fills only the single-address slot;
a list or tuple first evaluates `ips[0]` (an empty sequence therefore
raises IndexError), and when that first element is an IP instance both
slots are filled; a lone IP instance fills both slots with a one-element
list; None clears both slots; every remaining shape (including a
sequence whose first element is not an IP instance) raises the format
ValueError. -/
def ipSetterFn (ipaddrName ipaddrsName : String) (attrs : Attrs) (ips : PyVal) :
    Except PyErr Attrs :=
  match ips with
  | .pyStr _ => .ok (alInsert ipaddrName ips attrs)
  | .pyList [] => .error .indexError
  | .pyTuple [] => .error .indexError
  | .pyList (v :: _) =>
      if isIPInst v then
        .ok (alInsert ipaddrsName ips (alInsert ipaddrName (ipOfSubVal v) attrs))
      else .error (.valueError (ipSetterMsg ips))
  | .pyTuple (v :: _) =>
      if isIPInst v then
        .ok (alInsert ipaddrsName ips (alInsert ipaddrName (ipOfSubVal v) attrs))
      else .error (.valueError (ipSetterMsg ips))
  | .pySub c a =>
      if isIPInst (.pySub c a) then
        .ok (alInsert ipaddrsName (.pyList [.pySub c a])
              (alInsert ipaddrName (ipPropGet a) attrs))
      else .error (.valueError (ipSetterMsg ips))
  | .pyNone => .ok (alInsert ipaddrsName .pyNone (alInsert ipaddrName .pyNone attrs))
  | _ => .error (.valueError (ipSetterMsg ips))

/-- Comparing the `ip` values of two IP instances (each is a string or
None; `None == None` is True in Python). -/
def ipValEq (a b : PyVal) : Bool :=
  match a, b with
  | .pyNone, .pyNone => true
  | .pyStr s, .pyStr t => s = t
  | _, _ => false

mutual

/-- Python `==` on the values of this library.  `IP.__eq__` compares by
address value only and also accepts a bare address string (reflected
when the string is on the left); `AnyMember` and plain sub-objects keep
default equality, modelled structurally; dict equality is modelled on
the ordered representation. -/
def pyEq (x y : PyVal) : Bool :=
  match x, y with
  | .pySub c1 a1, o => subEqFn c1 a1 o
  | .pyStr s, .pySub c2 a2 => subEqFn c2 a2 (.pyStr s)
  | .pyNone, .pyNone => true
  | .pyStr a, .pyStr b => a = b
  | .pyInt a, .pyInt b => a = b
  | .pyBool a, .pyBool b => a = b
  | .pyInt a, .pyBool b => a = (if b then (1 : Int) else 0)
  | .pyBool a, .pyInt b => (if a then (1 : Int) else 0) = b
  | .pyList a, .pyList b => pyEqList a b
  | .pyTuple a, .pyTuple b => pyEqList a b
  | .pyDict a, .pyDict b => pyEqDict a b
  | _, _ => false
  termination_by sizeOf x + sizeOf y

/-- `IP.__eq__` (strings and same-class instances compare by `ip`;
`isinstance(other, self.__class__)` accepts the leaves when `self` is
the `IP` base); `AnyMember` keeps default equality. -/
def subEqFn (c : SubCls) (a : Attrs) (o : PyVal) : Bool :=
  match c with
  | .ipv4 =>
    match o with
    | .pyStr s => ipValEq (ipPropGet a) (.pyStr s)
    | .pySub .ipv4 a2 => ipValEq (ipPropGet a) (ipPropGet a2)
    | _ => false
  | .ipv6 =>
    match o with
    | .pyStr s => ipValEq (ipPropGet a) (.pyStr s)
    | .pySub .ipv6 a2 => ipValEq (ipPropGet a) (ipPropGet a2)
    | _ => false
  | .ipBase =>
    match o with
    | .pyStr s => ipValEq (ipPropGet a) (.pyStr s)
    | .pySub .ipBase a2 => ipValEq (ipPropGet a) (ipPropGet a2)
    | .pySub .ipv4 a2 => ipValEq (ipPropGet a) (ipPropGet a2)
    | .pySub .ipv6 a2 => ipValEq (ipPropGet a) (ipPropGet a2)
    | _ => false
  | .anyMember =>
    match o with
    | .pySub .anyMember a2 => pyEqDict a a2
    | _ => false
  termination_by sizeOf a + sizeOf o

/-- Elementwise Python `==` on lists. -/
def pyEqList (xs ys : List PyVal) : Bool :=
  match xs, ys with
  | [], [] => true
  | x :: xs', y :: ys' => pyEq x y && pyEqList xs' ys'
  | _, _ => false
  termination_by sizeOf xs + sizeOf ys

/-- Entrywise Python `==` on ordered dicts. -/
def pyEqDict (xs ys : List (String × PyVal)) : Bool :=
  match xs, ys with
  | [], [] => true
  | (k1, v1) :: xs', (k2, v2) :: ys' => k1 = k2 && pyEq v1 v2 && pyEqDict xs' ys'
  | _, _ => false
  termination_by sizeOf xs + sizeOf ys

end


/-- Concrete `InfobloxObject` classes of the source (family entry
points and their v4/v6 leaves, plus the fixed-family resources). -/
inductive IBClass where
  | Network | NetworkV4 | NetworkV6
  | HostRecord | HostRecordV4 | HostRecordV6
  | IPRange | IPRangeV4 | IPRangeV6
  | FixedAddress | FixedAddressV4 | FixedAddressV6
  | ARecordBase | ARecord | AAAARecord
  | PtrRecord | PtrRecordV4 | PtrRecordV6
  | NetworkView | DNSView | DNSZone | Member
  | IPAddress | IPv4Address | IPv6Address
  deriving DecidableEq, Repr

/-- The `_ip_version` class attribute: `none` models Python None
(dispatch still needed); 4, 6 and `'any'` are the fixed tags. -/
inductive IpTag where
  | v4 | v6 | vAny
  deriving DecidableEq, Repr

/-- `_ip_version` of each class (inherited where a class does not
redefine it). -/
def ibIpVersion (c : IBClass) : Option IpTag :=
  match c with
  | .NetworkV4 | .HostRecordV4 | .IPRangeV4 | .FixedAddressV4
  | .ARecord | .PtrRecordV4 | .IPv4Address => some .v4
  | .NetworkV6 | .HostRecordV6 | .IPRangeV6 | .FixedAddressV6
  | .AAAARecord | .PtrRecordV6 | .IPv6Address => some .v6
  | .NetworkView | .DNSView | .DNSZone | .Member => some .vAny
  | _ => none

/-- `get_v4_class` (the base default returns the class itself; each
dispatching family overrides it, and the leaves inherit the
override). -/
def ibV4Class (c : IBClass) : IBClass :=
  match c with
  | .Network | .NetworkV4 | .NetworkV6 => .NetworkV4
  | .HostRecord | .HostRecordV4 | .HostRecordV6 => .HostRecordV4
  | .IPRange | .IPRangeV4 | .IPRangeV6 => .IPRangeV4
  | .FixedAddress | .FixedAddressV4 | .FixedAddressV6 => .FixedAddressV4
  | .ARecordBase | .ARecord | .AAAARecord => .ARecord
  | .PtrRecord | .PtrRecordV4 | .PtrRecordV6 => .PtrRecordV4
  | .IPAddress | .IPv4Address | .IPv6Address => .IPv4Address
  | c => c

/-- `get_v6_class` (same inheritance pattern as `get_v4_class`). -/
def ibV6Class (c : IBClass) : IBClass :=
  match c with
  | .Network | .NetworkV4 | .NetworkV6 => .NetworkV6
  | .HostRecord | .HostRecordV4 | .HostRecordV6 => .HostRecordV6
  | .IPRange | .IPRangeV4 | .IPRangeV6 => .IPRangeV6
  | .FixedAddress | .FixedAddressV4 | .FixedAddressV6 => .FixedAddressV6
  | .ARecordBase | .ARecord | .AAAARecord => .AAAARecord
  | .PtrRecord | .PtrRecordV4 | .PtrRecordV6 => .PtrRecordV6
  | .IPAddress | .IPv4Address | .IPv6Address => .IPv6Address
  | c => c

/-- Immediate superclass inside the two-level resource hierarchy. -/
def ibParent (c : IBClass) : Option IBClass :=
  match c with
  | .NetworkV4 | .NetworkV6 => some .Network
  | .HostRecordV4 | .HostRecordV6 => some .HostRecord
  | .IPRangeV4 | .IPRangeV6 => some .IPRange
  | .FixedAddressV4 | .FixedAddressV6 => some .FixedAddress
  | .ARecord | .AAAARecord => some .ARecordBase
  | .PtrRecordV4 | .PtrRecordV6 => some .PtrRecord
  | .IPv4Address | .IPv6Address => some .IPAddress
  | _ => none

/-- `isinstance`-style subclass test within the resource hierarchy. -/
def isSubclassOf (c p : IBClass) : Bool :=
  c = p ||
    match ibParent c with
    | some q => q = p
    | none => false

/-- `_fields` of each class (inherited where not redefined). -/
def ibFields (c : IBClass) : List String :=
  match c with
  | .Network | .NetworkV4 | .NetworkV6 =>
      ["network_view", "network", "template", "options", "nameservers",
       "members", "gateway_ip", "extattrs"]
  | .HostRecord => []
  | .HostRecordV4 => ["ipv4addrs", "view", "extattrs", "name"]
  | .HostRecordV6 => ["ipv6addrs", "view", "extattrs", "name"]
  | .IPRange | .IPRangeV4 | .IPRangeV6 =>
      ["start_addr", "end_addr", "network_view", "network", "extattrs", "disable"]
  | .FixedAddress => []
  | .FixedAddressV4 => ["ipv4addr", "mac", "network_view", "extattrs"]
  | .FixedAddressV6 => ["ipv6addr", "duid", "network_view", "extattrs"]
  | .ARecordBase => []
  | .ARecord => ["ipv4addr", "name", "view", "extattrs"]
  | .AAAARecord => ["ipv6addr", "name", "view", "extattrs"]
  | .PtrRecord => []
  | .PtrRecordV4 => ["view", "ipv4addr", "ptrdname", "extattrs"]
  | .PtrRecordV6 => ["view", "ipv6addr", "ptrdname", "extattrs"]
  | .NetworkView => ["name", "extattrs"]
  | .DNSView => ["name", "network_view"]
  | .DNSZone => ["_ref", "fqdn", "view", "extattrs", "zone_format", "ns_group",
                 "prefix", "grid_primary", "grid_secondaries"]
  | .Member => ["host_name", "ipv6_setting", "node_info", "vip_setting"]
  | .IPAddress | .IPv4Address | .IPv6Address =>
      ["network_view", "ip_address", "objects"]

/-- `_search_fields` of each class. -/
def ibSearchFields (c : IBClass) : List String :=
  match c with
  | .Network | .NetworkV4 | .NetworkV6 => ["network_view", "network"]
  | .HostRecordV4 => ["view", "ipv4addr"]
  | .HostRecordV6 => ["ipv6addr", "view", "name"]
  | .IPRange | .IPRangeV4 | .IPRangeV6 => ["network_view", "start_addr"]
  | .FixedAddressV4 => ["ipv4addr", "mac", "network_view"]
  | .FixedAddressV6 => ["ipv6addr", "duid", "network_view"]
  | .ARecord => ["ipv4addr", "view"]
  | .AAAARecord => ["ipv6addr", "view"]
  | .PtrRecordV4 => ["view", "ipv4addr"]
  | .PtrRecordV6 => ["view", "ipv6addr"]
  | .NetworkView => ["name"]
  | .DNSView => ["name", "network_view"]
  | .DNSZone => ["fqdn", "view"]
  | .Member => ["host_name"]
  | .IPAddress | .IPv4Address | .IPv6Address => ["network_view", "ip_address"]
  | _ => []

/-- `_shadow_fields` of each class. -/
def ibShadow (c : IBClass) : List String :=
  match c with
  | .Network | .NetworkV4 | .NetworkV6 => ["_ref"]
  | .HostRecord => []
  | .HostRecordV4 => ["_ref", "ipv4addr"]
  | .HostRecordV6 => ["_ref", "ipv6addr"]
  | .IPRange | .IPRangeV4 | .IPRangeV6 => ["_ref"]
  | .FixedAddress => []
  | .FixedAddressV4 => ["_ref", "ip"]
  | .FixedAddressV6 => ["_ref", "mac", "ip"]
  | .ARecordBase => []
  | .ARecord | .AAAARecord => ["_ref"]
  | .PtrRecord => []
  | .PtrRecordV4 | .PtrRecordV6 => ["_ref"]
  | .NetworkView | .DNSView => ["_ref", "is_default"]
  | .DNSZone => ["_ref"]
  | .Member => ["_ref", "ip"]
  | .IPAddress | .IPv4Address | .IPv6Address => ["_ref"]

/-- `_return_fields` of each class. -/
def ibReturnFields (c : IBClass) : List String :=
  match c with
  | .Network | .NetworkV4 | .NetworkV6 =>
      ["network_view", "network", "options", "members"]
  | .HostRecordV4 => ["ipv4addrs"]
  | .HostRecordV6 => ["ipv6addrs"]
  | .IPRange | .IPRangeV4 | .IPRangeV6 =>
      ["start_addr", "end_addr", "network_view", "extattrs"]
  | .FixedAddressV4 => ["ipv4addr", "mac", "network_view", "extattrs"]
  | .FixedAddressV6 => ["ipv6addr", "duid", "network_view", "extattrs"]
  | .IPAddress | .IPv4Address | .IPv6Address => ["objects"]
  | _ => []

/-- `_remap` of each class. -/
def ibRemap (c : IBClass) : List (String × String) :=
  match c with
  | .Network | .NetworkV4 | .NetworkV6 => [("cidr", "network")]
  | .HostRecordV4 => [("ip", "ipv4addrs")]
  | .HostRecordV6 => [("ip", "ipv6addrs")]
  | .IPRange | .IPRangeV4 | .IPRangeV6 => [("cidr", "network")]
  | .FixedAddressV4 => [("ipv4addr", "ip")]
  | .FixedAddressV6 => [("ipv6addr", "ip")]
  | .ARecord => [("ip", "ipv4addr")]
  | .AAAARecord => [("ip", "ipv6addr")]
  | .PtrRecordV4 => [("ip", "ipv4addr")]
  | .PtrRecordV6 => [("ip", "ipv6addr")]
  | .Member => [("name", "host_name")]
  | _ => []

/-- `_infoblox_type` of each class (None on the abstract entry points
that do not set it). -/
def ibType (c : IBClass) : Option String :=
  match c with
  | .NetworkV4 => some "network"
  | .NetworkV6 => some "ipv6network"
  | .HostRecord | .HostRecordV4 | .HostRecordV6 => some "record:host"
  | .IPRangeV4 => some "range"
  | .IPRangeV6 => some "ipv6range"
  | .FixedAddressV4 => some "fixedaddress"
  | .FixedAddressV6 => some "ipv6fixedaddress"
  | .ARecord => some "record:a"
  | .AAAARecord => some "record:aaaa"
  | .PtrRecord | .PtrRecordV4 | .PtrRecordV6 => some "record:ptr"
  | .NetworkView => some "networkview"
  | .DNSView => some "view"
  | .DNSZone => some "zone_auth"
  | .Member => some "member"
  | .IPv4Address => some "ipv4address"
  | .IPv6Address => some "ipv6address"
  | _ => none

/-- Class name used in the unknown-parameter error message. -/
def ibClsName (c : IBClass) : String :=
  match c with
  | .Network => "Network"
  | .NetworkV4 => "NetworkV4"
  | .NetworkV6 => "NetworkV6"
  | .HostRecord => "HostRecord"
  | .HostRecordV4 => "HostRecordV4"
  | .HostRecordV6 => "HostRecordV6"
  | .IPRange => "IPRange"
  | .IPRangeV4 => "IPRangeV4"
  | .IPRangeV6 => "IPRangeV6"
  | .FixedAddress => "FixedAddress"
  | .FixedAddressV4 => "FixedAddressV4"
  | .FixedAddressV6 => "FixedAddressV6"
  | .ARecordBase => "ARecordBase"
  | .ARecord => "ARecord"
  | .AAAARecord => "AAAARecord"
  | .PtrRecord => "PtrRecord"
  | .PtrRecordV4 => "PtrRecordV4"
  | .PtrRecordV6 => "PtrRecordV6"
  | .NetworkView => "NetworkView"
  | .DNSView => "DNSView"
  | .DNSZone => "DNSZone"
  | .Member => "Member"
  | .IPAddress => "IPAddress"
  | .IPv4Address => "IPv4Address"
  | .IPv6Address => "IPv6Address"

/-- Data-descriptor (property) reads of the resource classes:
`HostRecordV4.ipv4addrs` / `HostRecordV6.ipv6addrs` (backed by the
`_ipvXaddrs` slot), `FixedAddress.ip` (string of `_ip`, truthiness
checked), `FixedAddressV6.mac` (plain `_mac` read), and the
`BaseObject.ref` getter-only property shared by every class.  Returns
`none` when the class has no property of that name. -/
def propGetIB (c : IBClass) (attrs : Attrs) (name : String) :
    Option (Except PyErr PyVal) :=
  match c, name with
  | .HostRecordV4, "ipv4addrs" =>
      some (match alLookup attrs "_ipv4addrs" with
            | some v => .ok v
            | none => .error .attributeError)
  | .HostRecordV6, "ipv6addrs" =>
      some (match alLookup attrs "_ipv6addrs" with
            | some v => .ok v
            | none => .error .attributeError)
  | .FixedAddress, "ip" | .FixedAddressV4, "ip" | .FixedAddressV6, "ip" =>
      some (.ok (match alLookup attrs "_ip" with
                 | some w => if pyTruthy w then .pyStr (pyStrOf w) else .pyNone
                 | none => .pyNone))
  | .FixedAddressV6, "mac" =>
      some (match alLookup attrs "_mac" with
            | some v => .ok v
            | none => .error .attributeError)
  | _, "ref" =>
      some (.ok ((alLookup attrs "_ref").getD .pyNone))
  | _, _ => none

/-- Data-descriptor (property) writes of the resource classes:
`HostRecordV4.ipv4addrs` / `HostRecordV6.ipv6addrs` run
`HostRecord._ip_setter`; `FixedAddress.ip` stores into `_ip`;
`FixedAddressV6.mac` stores `_mac` and derives `duid` from a truthy
hardware address (initializing `duid` to None when absent otherwise);
the getter-only `ref` property rejects writes.  Returns `none` when the
class has no property of that name. -/
def propSetIB (c : IBClass) (attrs : Attrs) (name : String) (v : PyVal) :
    Option (Except PyErr Attrs) :=
  match c, name with
  | .HostRecordV4, "ipv4addrs" => some (ipSetterFn "ipv4addr" "_ipv4addrs" attrs v)
  | .HostRecordV6, "ipv6addrs" => some (ipSetterFn "ipv6addr" "_ipv6addrs" attrs v)
  | .FixedAddress, "ip" | .FixedAddressV4, "ip" | .FixedAddressV6, "ip" =>
      some (.ok (alInsert "_ip" v attrs))
  | .FixedAddressV6, "mac" =>
      some (.ok (
        let a1 := alInsert "_mac" v attrs
        if pyTruthy v then alInsert "duid" (generate_duid v) a1
        else if (alLookup a1 "duid").isSome then a1
        else alInsert "duid" .pyNone a1))
  | _, "ref" => some (.error .attributeError)
  | _, _ => none

/-- `BaseObject.__setattr__` for a resource instance: alias names are
redirected to their canonical field, then `object.__setattr__` honours
data descriptors (properties) before writing the instance dictionary.
No alias chains occur in any class, so one resolution step suffices. -/
def instSetAttr (c : IBClass) (attrs : Attrs) (name : String) (v : PyVal) :
    Except PyErr Attrs :=
  let n := match alLookup (ibRemap c) name with
           | some f => f
           | none => name
  match propSetIB c attrs n v with
  | some r => r
  | none => .ok (alInsert n v attrs)

/-- Attribute read of a resource instance without the `__getattr__`
fallback: property first, then the instance dictionary. -/
def instGetAttrPlain (c : IBClass) (attrs : Attrs) (name : String) :
    Except PyErr PyVal :=
  match propGetIB c attrs name with
  | some r => r
  | none =>
    match alLookup attrs name with
    | some v => .ok v
    | none => .error .attributeError

/-- Full attribute read of a resource instance: when the plain protocol
raises AttributeError, `BaseObject.__getattr__` retries the aliased
canonical field or re-raises.  No alias chains occur in any class, so
one resolution step suffices. -/
def instGetAttr (c : IBClass) (attrs : Attrs) (name : String) :
    Except PyErr PyVal :=
  match instGetAttrPlain c attrs name with
  | .ok v => .ok v
  | .error .attributeError =>
      match alLookup (ibRemap c) name with
      | some f => instGetAttrPlain c attrs f
      | none => .error .attributeError
  | .error e => .error e

/-- Python `hasattr` for a resource instance. -/
def ibHasattr (c : IBClass) (attrs : Attrs) (name : String) : Bool :=
  match instGetAttr c attrs name with
  | .ok _ => true
  | .error _ => false

/-- The `BaseObject.__init__` field loop for a resource instance:
supplied fields are assigned through `setattr`, fields not yet present
(per `hasattr`) are initialized to None. -/
def initIBGo (c : IBClass) (mapped : Attrs) (attrs : Attrs)
    (fieldList : List String) : Except PyErr Attrs :=
  match fieldList with
  | [] => .ok attrs
  | f :: fs =>
    match alLookup mapped f with
    | some v =>
      match instSetAttr c attrs f v with
      | .ok a => initIBGo c mapped a fs
      | .error e => .error e
    | none =>
      if ibHasattr c attrs f then initIBGo c mapped attrs fs
      else
        match instSetAttr c attrs f .pyNone with
        | .ok a => initIBGo c mapped a fs
        | .error e => .error e

/-- `BaseObject.__init__` for a resource instance (the
`InfobloxObject.__init__` wrapper additionally stores the connector,
which is modelled separately). -/
def initIB (c : IBClass) (kwargs : Attrs) : Except PyErr Attrs :=
  match remapFields (ibClsName c) (ibRemap c) (ibFields c) (ibShadow c) kwargs with
  | .ok mapped => initIBGo c mapped [] (ibFields c ++ ibShadow c)
  | .error e => .error e

/-- The `ref` property value of an instance (`self._ref` when present,
else None). -/
def refOf (attrs : Attrs) : PyVal :=
  (alLookup attrs "_ref").getD .pyNone

/-- The serialization modes of `InfobloxObject.to_dict`
(`search_fields` parameter: None, `'only'`, `'exclude'`). -/
inductive SearchMode where
  | all | only | exclude
  deriving DecidableEq, Repr

/-- The field list serialized by each `to_dict` mode. -/
def modeFields (c : IBClass) (m : SearchMode) : List String :=
  match m with
  | .all => ibFields c
  | .only => ibSearchFields c
  | .exclude => (ibFields c).filter (fun f => !(ibSearchFields c).contains f)

/-- `InfobloxObject.value_to_dict`: render a sub-object through its
`to_dict`, leave every other value unchanged. -/
def value_to_dict (v : PyVal) : PyVal :=
  match v with
  | .pySub c a => .pyDict (subToDict c a)
  | v => v

/-- `InfobloxObject.field_to_dict` applied to an already-read value:
lists and tuples are rendered elementwise (producing a list), single
values through `value_to_dict`. -/
def fieldToDictVal (v : PyVal) : PyVal :=
  match v with
  | .pyList l => .pyList (l.map value_to_dict)
  | .pyTuple l => .pyList (l.map value_to_dict)
  | v => value_to_dict v

/-- `InfobloxObject.to_dict(search_fields)`: the mode's fields whose
current value is not None (a field read raising AttributeError counts
as None via the `getattr` default), rendered by `field_to_dict`. -/
def toDictIB (c : IBClass) (attrs : Attrs) (m : SearchMode) : Attrs :=
  (modeFields c m).filterMap (fun f =>
    match instGetAttr c attrs f with
    | .ok .pyNone => none
    | .ok v => some (f, fieldToDictVal v)
    | .error _ => none)

/-- A resource instance: its concrete class and its attribute
dictionary. -/
structure IBInst where
  cls : IBClass
  attrs : Attrs

/-- The declared-field comparison loop of `InfobloxObject.__eq__`
(`getattr` is raw here: a missing field raises). -/
def eqFieldsGo (x y : IBInst) (fieldList : List String) : Except PyErr Bool :=
  match fieldList with
  | [] => .ok true
  | f :: fs =>
    match instGetAttr x.cls x.attrs f with
    | .error e => .error e
    | .ok a =>
      match instGetAttr y.cls y.attrs f with
      | .error e => .error e
      | .ok b => if pyEq a b then eqFieldsGo x y fs else .ok false

/-- `InfobloxObject.__eq__`: an `isinstance` check against `self`'s
concrete class, then equality of every declared field of `self`. -/
def eqIB (x y : IBInst) : Except PyErr Bool :=
  if isSubclassOf y.cls x.cls then eqFieldsGo x y (ibFields x.cls)
  else .ok false

/-- Building one `AnyMember` per member dict
(`AnyMember.from_dict(m)` is `AnyMember(**m)`); a non-dict element
fails as Python keyword expansion would. -/
def buildMemberGo (ms : List PyVal) : Except PyErr (List PyVal) :=
  match ms with
  | [] => .ok []
  | .pyDict d :: t =>
    match subInit .anyMember d with
    | .ok a =>
      match buildMemberGo t with
      | .ok rest => .ok (.pySub .anyMember a :: rest)
      | .error e => .error e
    | .error e => .error e
  | _ :: _ => .error .typeError

/-- `Network._build_member` / `DNSZone._build_member`: a falsy payload
becomes None, otherwise every element is parsed as an `AnyMember`. -/
def _build_member (v : PyVal) : Except PyErr PyVal :=
  if !pyTruthy v then .ok .pyNone
  else match v with
  | .pyList ms => (buildMemberGo ms).map .pyList
  | .pyTuple ms => (buildMemberGo ms).map .pyList
  | _ => .error .typeError

/-- Building one IP leaf per address dict
(`IPv4.from_dict(ip_addr)` / `IPv6.from_dict(ip_addr)`). -/
def buildIPGo (c : SubCls) (ms : List PyVal) : Except PyErr (List PyVal) :=
  match ms with
  | [] => .ok []
  | .pyDict d :: t =>
    match subInit c d with
    | .ok a =>
      match buildIPGo c t with
      | .ok rest => .ok (.pySub c a :: rest)
      | .error e => .error e
    | .error e => .error e
  | _ :: _ => .error .typeError

/-- `HostRecordV4._build_ipv4`: an empty reply raises
HostRecordNotPresent, an invalid first address raises
InfobloxInvalidIp, otherwise every entry becomes an `IPv4`. -/
def _build_ipv4 (v : PyVal) : Except PyErr PyVal :=
  if !pyTruthy v then .error .hostRecordNotPresent
  else match v with
  | .pyList (m :: rest) =>
    (match m with
     | .pyDict d =>
       match alLookup d "ipv4addr" with
       | none => .error (.keyError "ipv4addr")
       | some ip =>
         if !is_valid_ip ip then .error (.infobloxInvalidIp (pyStrOf ip))
         else (buildIPGo .ipv4 (m :: rest)).map .pyList
     | _ => .error .typeError)
  | _ => .error .typeError

/-- `HostRecordV6._build_ipv6`: the IPv6 counterpart of
`_build_ipv4`. -/
def _build_ipv6 (v : PyVal) : Except PyErr PyVal :=
  if !pyTruthy v then .error .hostRecordNotPresent
  else match v with
  | .pyList (m :: rest) =>
    (match m with
     | .pyDict d =>
       match alLookup d "ipv6addr" with
       | none => .error (.keyError "ipv6addr")
       | some ip =>
         if !is_valid_ip ip then .error (.infobloxInvalidIp (pyStrOf ip))
         else (buildIPGo .ipv6 (m :: rest)).map .pyList
     | _ => .error .typeError)
  | _ => .error .typeError

/-- `_custom_field_processing` of each class (inherited where not
redefined). -/
def customProcessing (c : IBClass) :
    List (String × (PyVal → Except PyErr PyVal)) :=
  match c with
  | .Network | .NetworkV4 | .NetworkV6 => [("members", _build_member)]
  | .HostRecordV4 => [("ipv4addrs", _build_ipv4)]
  | .HostRecordV6 => [("ipv6addrs", _build_ipv6)]
  | .DNSZone => [("primary_dns_members", _build_member),
                 ("secondary_dns_members", _build_member)]
  | _ => []

/-- The in-place payload mutation loop of `InfobloxObject.from_dict`:
for each field with a registered processor that is present in the
payload, the payload entry is replaced by the processor's result. -/
def processDictGo (procs : List (String × (PyVal → Except PyErr PyVal)))
    (d : Attrs) : Except PyErr Attrs :=
  match procs with
  | [] => .ok d
  | (f, p) :: rest =>
    match alLookup d f with
    | none => processDictGo rest d
    | some v =>
      match p v with
      | .ok w => processDictGo rest (alInsert f w d)
      | .error e => .error e

/-- The version-scan loop of `InfobloxObject.get_class_from_args`: the
candidate names are probed in order and the first one present decides
the variant. -/
def scanAddrFields (c : IBClass) (kwargs : Attrs) (names : List String) :
    IBClass :=
  match names with
  | [] => ibV4Class c
  | n :: ns =>
    match alLookup kwargs n with
    | some v => if determine_ip_version v = 6 then ibV6Class c else ibV4Class c
    | none => scanAddrFields c kwargs ns

/-- `InfobloxObject.get_class_from_args`: a class with a truthy
`_ip_version` is returned unchanged; otherwise the constructor
arguments are scanned for `ip`, `cidr`, `start_ip`, `ip_address`, and
the v4 variant is the fallback. -/
def get_class_from_args (c : IBClass) (kwargs : Attrs) : IBClass :=
  if (ibIpVersion c).isSome then c
  else scanAddrFields c kwargs ["ip", "cidr", "start_ip", "ip_address"]

/-- `InfobloxObject.from_dict(connector, ip_dict)`: run the custom
field processors over the payload in place, then construct
`cls(connector, **ip_dict)` (which dispatches through `__new__`).
Returns the caller-visible mutated payload together with the dispatched
class and the new instance's attributes. -/
def fromDictIB (c : IBClass) (d : Attrs) :
    Except PyErr (Attrs × IBClass × Attrs) :=
  match processDictGo (customProcessing c) d with
  | .error e => .error e
  | .ok d2 =>
    match initIB (get_class_from_args c d2) d2 with
    | .ok attrs => .ok (d2, get_class_from_args c d2, attrs)
    | .error e => .error e

/-- The field-merge loop of `InfobloxObject.update_from_dict`: a field
is overwritten when its name is present in the source payload (the
value is read from the alias-resolved `mapped_args`, so a payload key
that is only reachable through an alias would raise KeyError). -/
def updateFromDictGo (c : IBClass) (ipDict mapped attrs : Attrs)
    (fieldList : List String) : Except PyErr Attrs :=
  match fieldList with
  | [] => .ok attrs
  | f :: fs =>
    if alContains ipDict f then
      match alLookup mapped f with
      | some v =>
        match instSetAttr c attrs f v with
        | .ok a => updateFromDictGo c ipDict mapped a fs
        | .error e => .error e
      | none => .error (.keyError f)
    else updateFromDictGo c ipDict mapped attrs fs

/-- `InfobloxObject.update_from_dict`. -/
def updateFromDict (c : IBClass) (attrs ipDict : Attrs) : Except PyErr Attrs :=
  match remapFields (ibClsName c) (ibRemap c) (ibFields c) (ibShadow c) ipDict with
  | .ok mapped => updateFromDictGo c ipDict mapped attrs (ibFields c ++ ibShadow c)
  | .error e => .error e

/-- The connector collaborator, as the pure oracle behind the calls of
§6.  `get_object` is modelled as two oracles matching its two call
shapes in this file (by reference, and by type with a query dict);
`delete_object` may raise. -/
structure Connector where
  getObjectByRef : PyVal → List String → Option Attrs
  getObjectByType : Option String → Attrs → List String → List Attrs
  createObject : Option String → Attrs → List String → PyVal
  updateObject : PyVal → Attrs → List String → PyVal
  deleteObject : PyVal → Except PyErr Unit

/-- One observed connector call, with its arguments. -/
inductive ConnCall where
  | getByRef : PyVal → List String → ConnCall
  | getByType : Option String → Attrs → List String → ConnCall
  | createObj : Option String → Attrs → List String → ConnCall
  | updateObj : PyVal → Attrs → List String → ConnCall
  | deleteObj : PyVal → ConnCall

/-- Whether a connector call is a write (`create_object` or
`update_object`). -/
def isWriteCall (call : ConnCall) : Bool :=
  match call with
  | .createObj _ _ _ => true
  | .updateObj _ _ _ => true
  | _ => false

/-- The search-by-fields half of `InfobloxObject.fetch`: query by the
`search-only` serialization and merge the first match. -/
def fetchSearch (conn : Connector) (c : IBClass) (attrs : Attrs) :
    List ConnCall × Except PyErr (Bool × Attrs) :=
  let sd := toDictIB c attrs .only
  let call := ConnCall.getByType (ibType c) sd (ibReturnFields c)
  match conn.getObjectByType (ibType c) sd (ibReturnFields c) with
  | d :: _ => ([call], (updateFromDict c attrs d).map (fun a => (true, a)))
  | [] => ([call], .ok (false, attrs))

/-- `InfobloxObject.fetch`: re-read by reference handle when one is
set (falling through to the field search when that read returns
nothing), else search by fields; merge any result into the instance and
report success. -/
def fetchIB (conn : Connector) (c : IBClass) (attrs : Attrs) :
    List ConnCall × Except PyErr (Bool × Attrs) :=
  let refv := refOf attrs
  if pyTruthy refv then
    let call := ConnCall.getByRef refv (ibReturnFields c)
    match conn.getObjectByRef refv (ibReturnFields c) with
    | some d => ([call], (updateFromDict c attrs d).map (fun a => (true, a)))
    | none =>
      let (cs, r) := fetchSearch conn c attrs
      (call :: cs, r)
  else fetchSearch conn c attrs

/-- `InfobloxObject._object_from_reply`: a falsy reply is None, a dict
reply is parsed via `from_dict`, anything else is a bare reference
string wrapped as `{'_ref': reply}`. -/
def objectFromReply (c : IBClass) (reply : PyVal) :
    Except PyErr (Option (IBClass × Attrs)) :=
  if !pyTruthy reply then .ok none
  else match reply with
  | .pyDict d => (fromDictIB c d).map (fun r => some (r.2.1, r.2.2))
  | r => (fromDictIB c [("_ref", r)]).map (fun r2 => some (r2.2.1, r2.2.2))

/-- `InfobloxObject.create`: build the local instance (dispatching
through `__new__`), optionally fetch first and return the existing
instance when found and updates are not requested; then create when no
reference handle is present, update when one is and updates are
requested, and parse the reply.  The call trace is returned alongside
the outcome. -/
def createIB (conn : Connector) (c : IBClass)
    (check_if_exists update_if_exists : Bool) (kwargs : Attrs) :
    List ConnCall × Except PyErr (Option (IBClass × Attrs)) :=
  let c2 := get_class_from_args c kwargs
  match initIB c2 kwargs with
  | .error e => ([], .error e)
  | .ok attrs0 =>
    let fetched := if check_if_exists then fetchIB conn c2 attrs0
                   else ([], .ok (false, attrs0))
    match fetched with
    | (calls1, .error e) => (calls1, .error e)
    | (calls1, .ok (found, attrs1)) =>
      if found && !update_if_exists then
        (calls1, .ok (some (c2, attrs1)))
      else
        let refv := refOf attrs1
        if !pyTruthy refv then
          let payload := toDictIB c2 attrs1 .all
          let call := ConnCall.createObj (ibType c2) payload (ibReturnFields c2)
          let reply := conn.createObject (ibType c2) payload (ibReturnFields c2)
          (calls1 ++ [call], objectFromReply c2 reply)
        else if update_if_exists then
          let payload := toDictIB c2 attrs1 .exclude
          let call := ConnCall.updateObj refv payload (ibReturnFields c2)
          let reply := conn.updateObject refv payload (ibReturnFields c2)
          (calls1 ++ [call], objectFromReply c2 reply)
        else
          (calls1, .ok none)

/-- `InfobloxObject.update`: push the `exclude-search` payload keyed by
the reference handle and parse the reply into a fresh instance. -/
def updateIB (conn : Connector) (c : IBClass) (attrs : Attrs) :
    List ConnCall × Except PyErr (Option (IBClass × Attrs)) :=
  let payload := toDictIB c attrs .exclude
  let reply := conn.updateObject (refOf attrs) payload (ibReturnFields c)
  ([.updateObj (refOf attrs) payload (ibReturnFields c)],
   objectFromReply c reply)

/-- `InfobloxObject.delete`: delete by reference handle; the
InfobloxCannotDeleteObject condition is caught and logged, every other
condition propagates. -/
def deleteIB (conn : Connector) (attrs : Attrs) :
    List ConnCall × Except PyErr Unit :=
  ([.deleteObj (refOf attrs)],
   match conn.deleteObject (refOf attrs) with
   | .ok _ => .ok ()
   | .error .infobloxCannotDeleteObject => .ok ()
   | .error e => .error e)

/-- The family entry points marked "dispatch required" (their
`_ip_version` is None). -/
def dispatchFamilies : List IBClass :=
  [.Network, .HostRecord, .IPRange, .FixedAddress, .ARecordBase,
   .PtrRecord, .IPAddress]

/-- The resource classes whose attribute access involves no property
other than the universal `ref` getter: every class except the
host-record leaves (ipvXaddrs setter) and the fixed-address classes
(ip and mac properties). -/
def plainClasses : List IBClass :=
  [.Network, .NetworkV4, .NetworkV6, .HostRecord,
   .IPRange, .IPRangeV4, .IPRangeV6,
   .ARecordBase, .ARecord, .AAAARecord,
   .PtrRecord, .PtrRecordV4, .PtrRecordV6,
   .NetworkView, .DNSView, .DNSZone, .Member,
   .IPAddress, .IPv4Address, .IPv6Address]

/-- The alias pairs (class, alias, canonical field) whose canonical
field is a plain storage slot on an instantiable class: every alias of
the resource classes except the property-intercepted host-record
`ip → ipvXaddrs` and fixed-address `ipvXaddr → ip` pairs. -/
def plainAliases : List (IBClass × String × String) :=
  [(.NetworkV4, "cidr", "network"), (.NetworkV6, "cidr", "network"),
   (.IPRangeV4, "cidr", "network"), (.IPRangeV6, "cidr", "network"),
   (.ARecord, "ip", "ipv4addr"), (.AAAARecord, "ip", "ipv6addr"),
   (.PtrRecordV4, "ip", "ipv4addr"), (.PtrRecordV6, "ip", "ipv6addr"),
   (.Member, "name", "host_name")]

/-- A sample connector whose type search finds one NetworkView whose
payload carries a reference handle (the shape of a real server
reply). -/
def connNetworkView : Connector where
  getObjectByRef := fun _ _ => none
  getObjectByType := fun _ _ _ =>
    [[("_ref", .pyStr "networkview/ZG5z:default/true"),
      ("name", .pyStr "default")]]
  createObject := fun _ _ _ => .pyNone
  updateObject := fun _ _ _ => .pyStr "networkview/ZG5z:default/true"
  deleteObject := fun _ => .ok ()

/-- A sample connector whose delete raises a non-protected condition. -/
def connDeleteFails : Connector where
  getObjectByRef := fun _ _ => none
  getObjectByType := fun _ _ _ => []
  createObject := fun _ _ _ => .pyNone
  updateObject := fun _ _ _ => .pyNone
  deleteObject := fun _ => .error (.otherConnectorError 7)

/-- The resource classes that do not declare `_ref` among their
declared fields (every class except DNSZone). -/
def refFreeClasses : List IBClass :=
  [.Network, .NetworkV4, .NetworkV6,
   .HostRecord, .HostRecordV4, .HostRecordV6,
   .IPRange, .IPRangeV4, .IPRangeV6,
   .FixedAddress, .FixedAddressV4, .FixedAddressV6,
   .ARecordBase, .ARecord, .AAAARecord,
   .PtrRecord, .PtrRecordV4, .PtrRecordV6,
   .NetworkView, .DNSView, .Member,
   .IPAddress, .IPv4Address, .IPv6Address]

/-- Every (class, shadow field) pair whose shadow field is not also a
declared field of that class — the shadow-only slots.  (DNSZone's
`_ref` is missing because DNSZone declares `_ref` among its fields.) -/
def shadowOnlyPairs : List (IBClass × String) :=
  [(.Network, "_ref"), (.NetworkV4, "_ref"), (.NetworkV6, "_ref"),
   (.HostRecordV4, "_ref"), (.HostRecordV4, "ipv4addr"),
   (.HostRecordV6, "_ref"), (.HostRecordV6, "ipv6addr"),
   (.IPRange, "_ref"), (.IPRangeV4, "_ref"), (.IPRangeV6, "_ref"),
   (.FixedAddressV4, "_ref"), (.FixedAddressV4, "ip"),
   (.FixedAddressV6, "_ref"), (.FixedAddressV6, "mac"), (.FixedAddressV6, "ip"),
   (.ARecord, "_ref"), (.AAAARecord, "_ref"),
   (.PtrRecordV4, "_ref"), (.PtrRecordV6, "_ref"),
   (.NetworkView, "_ref"), (.NetworkView, "is_default"),
   (.DNSView, "_ref"), (.DNSView, "is_default"),
   (.Member, "_ref"), (.Member, "ip"),
   (.IPAddress, "_ref"), (.IPv4Address, "_ref"), (.IPv6Address, "_ref")]

@[simp] theorem alLookup_nil {α : Type} (k : String) :
    alLookup ([] : List (String × α)) k = none := rfl

@[simp] theorem alLookup_cons {α : Type} (k k' : String) (v : α)
    (t : List (String × α)) :
    alLookup ((k', v) :: t) k = if k' = k then some v else alLookup t k := rfl

@[simp] theorem alInsert_nil {α : Type} (k : String) (v : α) :
    alInsert k v ([] : List (String × α)) = [(k, v)] := rfl

@[simp] theorem alInsert_cons {α : Type} (k k' : String) (v v' : α)
    (t : List (String × α)) :
    alInsert k v ((k', v') :: t) =
      if k' = k then (k, v) :: t else (k', v') :: alInsert k v t := rfl

theorem alLookup_alInsert {α : Type} (k k' : String) (v : α)
    (l : List (String × α)) :
    alLookup (alInsert k v l) k' = if k = k' then some v else alLookup l k' := by
  induction l with
  | nil => simp [alInsert, alLookup]
  | cons h t ih =>
    obtain ⟨hk, hv⟩ := h
    by_cases h1 : hk = k <;> by_cases h2 : k = k' <;>
      simp_all [alInsert, alLookup]

@[simp] theorem alLookup_alInsert_self {α : Type} (k : String) (v : α)
    (l : List (String × α)) :
    alLookup (alInsert k v l) k = some v := by
  simp [alLookup_alInsert]

theorem alLookup_alInsert_ne {α : Type} (k k' : String) (v : α)
    (l : List (String × α)) (h : k ≠ k') :
    alLookup (alInsert k v l) k' = alLookup l k' := by
  simp [alLookup_alInsert, h]

example :
    alLookup (alInsert "a" (PyVal.pyInt 1) [("b", PyVal.pyInt 2)]) "a" =
      some (PyVal.pyInt 1) := rfl

example : pyTruthy (.pyStr "") = false := by decide

/-- C1, counterexample: the claim says an empty sequence fails with the
malformed-address-list format error, but `_ip_setter` on an empty list
evaluates `ips[0]` inside the `isinstance(ips[0], IP)` guard and
therefore raises IndexError, not the format ValueError. -/
theorem infoblox_C1_counterexample :
    ipSetterFn "ipv4addr" "_ipv4addrs" [] (.pyList []) = .error .indexError ∧
    ipSetterFn "ipv4addr" "_ipv4addrs" [] (.pyList []) ≠
      .error (.valueError (ipSetterMsg (.pyList []))) := by
  refine ⟨rfl, ?_⟩
  simp [ipSetterFn]

/-- C1 (amended): for both host-record leaves the address-list setter
behaves by input shape — a bare string fills only the hint slot,
leaving the list slot unchanged (not cleared); a non-empty list or
tuple whose first element is an IP sub-object fills the list slot with
the payload and the hint slot with the first entry's address; a lone IP
sub-object fills both slots with a one-element list; None clears both
slots; an empty sequence fails with IndexError (not the format error);
every other shape, including a sequence whose first element is not an
IP sub-object, fails with the format ValueError. -/
theorem infoblox_C1_amended (n1 n2 : String) (hne : n1 ≠ n2) (attrs : Attrs) :
    (∀ (a : Attrs) (ips : PyVal),
       instSetAttr .HostRecordV4 a "ipv4addrs" ips =
         ipSetterFn "ipv4addr" "_ipv4addrs" a ips ∧
       instSetAttr .HostRecordV4 a "ip" ips =
         ipSetterFn "ipv4addr" "_ipv4addrs" a ips ∧
       instSetAttr .HostRecordV6 a "ipv6addrs" ips =
         ipSetterFn "ipv6addr" "_ipv6addrs" a ips ∧
       instSetAttr .HostRecordV6 a "ip" ips =
         ipSetterFn "ipv6addr" "_ipv6addrs" a ips) ∧
    (∀ s : String,
       ipSetterFn n1 n2 attrs (.pyStr s) = .ok (alInsert n1 (.pyStr s) attrs) ∧
       alLookup (alInsert n1 (.pyStr s) attrs) n2 = alLookup attrs n2) ∧
    (∀ (v : PyVal) (t : List PyVal), isIPInst v = true →
       ipSetterFn n1 n2 attrs (.pyList (v :: t)) =
         .ok (alInsert n2 (.pyList (v :: t)) (alInsert n1 (ipOfSubVal v) attrs)) ∧
       alLookup (alInsert n2 (.pyList (v :: t)) (alInsert n1 (ipOfSubVal v) attrs)) n1 =
         some (ipOfSubVal v) ∧
       alLookup (alInsert n2 (.pyList (v :: t)) (alInsert n1 (ipOfSubVal v) attrs)) n2 =
         some (.pyList (v :: t))) ∧
    (ipSetterFn n1 n2 attrs (.pyList []) = .error .indexError ∧
     ipSetterFn n1 n2 attrs (.pyTuple []) = .error .indexError) ∧
    (∀ (v : PyVal) (t : List PyVal), isIPInst v = false →
       ipSetterFn n1 n2 attrs (.pyList (v :: t)) =
         .error (.valueError (ipSetterMsg (.pyList (v :: t))))) ∧
    (∀ (sc : SubCls) (a0 : Attrs), isIPInst (.pySub sc a0) = true →
       ipSetterFn n1 n2 attrs (.pySub sc a0) =
         .ok (alInsert n2 (.pyList [.pySub sc a0]) (alInsert n1 (ipPropGet a0) attrs))) ∧
    (ipSetterFn n1 n2 attrs .pyNone =
       .ok (alInsert n2 .pyNone (alInsert n1 .pyNone attrs)) ∧
     alLookup (alInsert n2 .pyNone (alInsert n1 .pyNone attrs)) n1 = some .pyNone ∧
     alLookup (alInsert n2 .pyNone (alInsert n1 .pyNone attrs)) n2 = some .pyNone) ∧
    (∀ n : Int, ipSetterFn n1 n2 attrs (.pyInt n) =
       .error (.valueError (ipSetterMsg (.pyInt n)))) ∧
    (∀ (v : PyVal) (t : List PyVal), isIPInst v = true →
       ipSetterFn n1 n2 attrs (.pyTuple (v :: t)) =
         .ok (alInsert n2 (.pyTuple (v :: t)) (alInsert n1 (ipOfSubVal v) attrs))) ∧
    (∀ (v : PyVal) (t : List PyVal), isIPInst v = false →
       ipSetterFn n1 n2 attrs (.pyTuple (v :: t)) =
         .error (.valueError (ipSetterMsg (.pyTuple (v :: t))))) ∧
    (∀ b : Bool, ipSetterFn n1 n2 attrs (.pyBool b) =
       .error (.valueError (ipSetterMsg (.pyBool b)))) ∧
    (∀ d : Attrs, ipSetterFn n1 n2 attrs (.pyDict d) =
       .error (.valueError (ipSetterMsg (.pyDict d)))) ∧
    (∀ a0 : Attrs, ipSetterFn n1 n2 attrs (.pySub .anyMember a0) =
       .error (.valueError (ipSetterMsg (.pySub .anyMember a0)))) := by
  have hne' : n2 ≠ n1 := fun h => hne h.symm
  refine ⟨?_, ?_, ?_, ⟨rfl, rfl⟩, ?_, ?_, ?_, ?_, ?_, ?_, ?_, ?_, ?_⟩
  · intro a ips
    exact ⟨rfl, rfl, rfl, rfl⟩
  · intro s
    exact ⟨rfl, alLookup_alInsert_ne n1 n2 _ attrs hne⟩
  · intro v t hv
    refine ⟨by simp [ipSetterFn, hv], ?_, by simp⟩
    rw [alLookup_alInsert_ne n2 n1 _ _ hne']
    simp
  · intro v t hv
    simp [ipSetterFn, hv]
  · intro sc a0 hv
    simp [ipSetterFn, hv]
  · refine ⟨rfl, ?_, by simp⟩
    rw [alLookup_alInsert_ne n2 n1 _ _ hne']
    simp
  · intro n
    rfl
  · intro v t hv
    simp [ipSetterFn, hv]
  · intro v t hv
    simp [ipSetterFn, hv]
  · intro b
    rfl
  · intro d
    rfl
  · intro a0
    rfl

/-- C1, witness: the amended theorem applied to the IPv4 slot names of
`HostRecordV4` on a fresh instance dictionary. -/
theorem infoblox_C1_witness :
    (("ipv4addr" : String) ≠ "_ipv4addrs") ∧
    (ipSetterFn "ipv4addr" "_ipv4addrs" [] (.pyList []) = .error .indexError ∧
     ipSetterFn "ipv4addr" "_ipv4addrs" [] (.pyTuple []) = .error .indexError) :=
  ⟨by decide,
   (infoblox_C1_amended "ipv4addr" "_ipv4addrs" (by decide) []).2.2.2.1⟩

/-- Helper: what a `to_dict` entry certifies about the instance — the
field read succeeded with a non-None value that was rendered by
`field_to_dict`. -/
theorem toDict_entry (c : IBClass) (attrs : Attrs) (f : String)
    (kv : String × PyVal)
    (h : (match instGetAttr c attrs f with
          | .ok .pyNone => none
          | .ok v => some (f, fieldToDictVal v)
          | .error _ => none) = some kv) :
    ∃ w, instGetAttr c attrs f = .ok w ∧ w ≠ .pyNone ∧ kv = (f, fieldToDictVal w) := by
  cases hI : instGetAttr c attrs f with
  | error e => rw [hI] at h; exact absurd h (by simp)
  | ok v =>
    rw [hI] at h
    cases v
    case pyNone => exact absurd h (by simp)
    all_goals exact ⟨_, rfl, by simp, (Option.some.inj h).symm⟩

/-- C2, counterexample: `DNSZone` lists `_ref` both in `_fields` and in
`_shadow_fields`, so serializing a persisted zone in the default mode
emits the key `_ref`, which is a shadow field name of the descriptor —
against the claim that `to_dict` never contains a shadow field name. -/
theorem infoblox_C2_counterexample :
    initIB .DNSZone [("fqdn", .pyStr "a.com"), ("_ref", .pyStr "zone/1")] =
      .ok [("_ref", .pyStr "zone/1"), ("fqdn", .pyStr "a.com"),
           ("view", .pyNone), ("extattrs", .pyNone), ("zone_format", .pyNone),
           ("ns_group", .pyNone), ("prefix", .pyNone), ("grid_primary", .pyNone),
           ("grid_secondaries", .pyNone)] ∧
    toDictIB .DNSZone
      [("_ref", .pyStr "zone/1"), ("fqdn", .pyStr "a.com"),
       ("view", .pyNone), ("extattrs", .pyNone), ("zone_format", .pyNone),
       ("ns_group", .pyNone), ("prefix", .pyNone), ("grid_primary", .pyNone),
       ("grid_secondaries", .pyNone)] .all =
      [("_ref", .pyStr "zone/1"), ("fqdn", .pyStr "a.com")] ∧
    "_ref" ∈ ibShadow .DNSZone ∧
    "_ref" ∈ (toDictIB .DNSZone
      [("_ref", .pyStr "zone/1"), ("fqdn", .pyStr "a.com"),
       ("view", .pyNone), ("extattrs", .pyNone), ("zone_format", .pyNone),
       ("ns_group", .pyNone), ("prefix", .pyNone), ("grid_primary", .pyNone),
       ("grid_secondaries", .pyNone)] .all).map Prod.fst := by
  refine ⟨rfl, rfl, by decide, ?_⟩
  rw [show (toDictIB .DNSZone
      [("_ref", .pyStr "zone/1"), ("fqdn", .pyStr "a.com"),
       ("view", .pyNone), ("extattrs", .pyNone), ("zone_format", .pyNone),
       ("ns_group", .pyNone), ("prefix", .pyNone), ("grid_primary", .pyNone),
       ("grid_secondaries", .pyNone)] .all).map Prod.fst =
    ["_ref", "fqdn"] from rfl]
  decide

/-- C2 (amended): every entry of `to_dict` comes from the mode's field
list with a non-None (non-absent) stored value rendered by
`field_to_dict`; in the all and exclude-search modes the keys are drawn
only from the declared fields.  A key may still coincide with a shadow
field name when the declared list itself contains one (DNSZone `_ref`)
or when the search-field list does (host-record `ipvXaddr` in
search-only mode). -/
theorem infoblox_C2_amended (c : IBClass) (attrs : Attrs) (m : SearchMode)
    (kv : String × PyVal) (hkv : kv ∈ toDictIB c attrs m) :
    kv.1 ∈ modeFields c m ∧
    (∃ w, instGetAttr c attrs kv.1 = .ok w ∧ w ≠ .pyNone ∧
      kv.2 = fieldToDictVal w) ∧
    ((m = .all ∨ m = .exclude) → kv.1 ∈ ibFields c) := by
  obtain ⟨f, hf, hfn⟩ := List.mem_filterMap.mp hkv
  obtain ⟨w, hw, hwn, hkveq⟩ := toDict_entry c attrs f kv hfn
  subst hkveq
  refine ⟨hf, ⟨w, hw, hwn, rfl⟩, ?_⟩
  rintro (rfl | rfl)
  · exact hf
  · exact (List.mem_filter.mp hf).1

/-- C2, witness: the amended theorem applied to the single entry of a
NetworkView serialization. -/
theorem infoblox_C2_witness :
    (("name", PyVal.pyStr "default") ∈
      toDictIB .NetworkView
        [("name", .pyStr "default"), ("extattrs", .pyNone),
         ("_ref", .pyNone), ("is_default", .pyNone)] .all) ∧
    ("name" ∈ modeFields .NetworkView .all ∧
     (∃ w, instGetAttr .NetworkView
        [("name", .pyStr "default"), ("extattrs", .pyNone),
         ("_ref", .pyNone), ("is_default", .pyNone)] "name" = .ok w ∧
        w ≠ .pyNone ∧ (PyVal.pyStr "default") = fieldToDictVal w) ∧
     ((SearchMode.all = SearchMode.all ∨ SearchMode.all = SearchMode.exclude) →
        "name" ∈ ibFields .NetworkView)) := by
  have hmem : ("name", PyVal.pyStr "default") ∈
      toDictIB .NetworkView
        [("name", .pyStr "default"), ("extattrs", .pyNone),
         ("_ref", .pyNone), ("is_default", .pyNone)] .all := by
    rw [show toDictIB .NetworkView
        [("name", .pyStr "default"), ("extattrs", .pyNone),
         ("_ref", .pyNone), ("is_default", .pyNone)] .all =
      [("name", .pyStr "default")] from rfl]
    exact List.mem_singleton.mpr rfl
  exact ⟨hmem, infoblox_C2_amended .NetworkView _ .all _ hmem⟩

/-- C7 (confirmed): `delete()` catches exactly the
InfobloxCannotDeleteObject condition (logging it and returning
normally); every other connector condition, and the normal return,
pass through unmodified. -/
theorem infoblox_C7 (conn : Connector) (attrs : Attrs) :
    (conn.deleteObject (refOf attrs) = .error .infobloxCannotDeleteObject →
      deleteIB conn attrs = ([.deleteObj (refOf attrs)], .ok ())) ∧
    (∀ e, e ≠ PyErr.infobloxCannotDeleteObject →
      conn.deleteObject (refOf attrs) = .error e →
      deleteIB conn attrs = ([.deleteObj (refOf attrs)], .error e)) ∧
    (conn.deleteObject (refOf attrs) = .ok () →
      deleteIB conn attrs = ([.deleteObj (refOf attrs)], .ok ())) := by
  refine ⟨?_, ?_, ?_⟩
  · intro h
    unfold deleteIB
    rw [h]
  · intro e he h
    unfold deleteIB
    rw [h]
    cases e <;> simp_all
  · intro h
    unfold deleteIB
    rw [h]

/-- C7, witness: a connector raising a non-protected condition has it
propagated by `delete()`. -/
theorem infoblox_C7_witness :
    (PyErr.otherConnectorError 7 ≠ PyErr.infobloxCannotDeleteObject) ∧
    connDeleteFails.deleteObject (refOf []) = .error (.otherConnectorError 7) ∧
    deleteIB connDeleteFails [] =
      ([.deleteObj (refOf [])], .error (.otherConnectorError 7)) :=
  ⟨by decide, rfl,
   (infoblox_C7 connDeleteFails []).2.1 (.otherConnectorError 7) (by decide) rfl⟩

/-- Helper: a key absent from an association list's key set looks up to
none. -/
theorem alLookup_eq_none_of_not_mem {α : Type} (l : List (String × α))
    (k : String) (h : k ∉ l.map Prod.fst) : alLookup l k = none := by
  induction l with
  | nil => rfl
  | cons p t ih =>
    obtain ⟨k', v'⟩ := p
    simp only [List.map_cons, List.mem_cons] at h
    push_neg at h
    have h1 : k' ≠ k := fun hh => h.1 hh.symm
    simp [alLookup, h1, ih h.2]

/-- Helper: what a successful run of the `from_dict` processor loop
guarantees, given processor keys are distinct: each present processed
field holds the processor's result, every other key is untouched. -/
theorem processDictGo_spec (procs : List (String × (PyVal → Except PyErr PyVal)))
    (hnd : (procs.map Prod.fst).Nodup) :
    ∀ d d2, processDictGo procs d = .ok d2 →
      (∀ f p, alLookup procs f = some p → ∀ v, alLookup d f = some v →
        ∃ w, p v = .ok w ∧ alLookup d2 f = some w) ∧
      (∀ f, alLookup procs f = none → alLookup d2 f = alLookup d f) := by
  induction procs with
  | nil =>
    intro d d2 h
    refine ⟨?_, ?_⟩
    · intro f p hp
      exact absurd hp (by simp)
    · intro f _
      simp only [processDictGo] at h
      rw [Except.ok.inj h]
  | cons gp rest ih =>
    obtain ⟨g, p⟩ := gp
    intro d d2 h
    simp only [List.map_cons, List.nodup_cons] at hnd
    have hg : g ∉ rest.map Prod.fst := hnd.1
    have hnd' := hnd.2
    simp only [processDictGo] at h
    split at h
    case _ hd =>
      obtain ⟨ha, hb⟩ := ih hnd' d d2 h
      refine ⟨?_, ?_⟩
      · intro f q hq v hv
        by_cases hfg : g = f
        · subst hfg
          rw [hd] at hv
          exact absurd hv (by simp)
        · have hq' : alLookup rest f = some q := by
            simpa [alLookup, hfg] using hq
          exact ha f q hq' v hv
      · intro f hf
        have hf' : g ≠ f ∧ alLookup rest f = none := by
          by_cases hfg : g = f <;> simp_all [alLookup]
        exact hb f hf'.2
    case _ v0 hd =>
      split at h
      case _ w0 hpv =>
        obtain ⟨ha, hb⟩ := ih hnd' (alInsert g w0 d) d2 h
        refine ⟨?_, ?_⟩
        · intro f q hq v hv
          by_cases hfg : g = f
          · subst hfg
            have hqp : q = p := by simpa [alLookup] using hq.symm
            subst hqp
            have hvv : v = v0 := by
              rw [hd] at hv
              exact (Option.some.inj hv).symm
            subst hvv
            refine ⟨w0, hpv, ?_⟩
            have hrg : alLookup rest g = none :=
              alLookup_eq_none_of_not_mem rest g hg
            rw [hb g hrg]
            simp
          · have hq' : alLookup rest f = some q := by
              simpa [alLookup, hfg] using hq
            have hv' : alLookup (alInsert g w0 d) f = some v := by
              rw [alLookup_alInsert_ne g f _ _ hfg]
              exact hv
            exact ha f q hq' v hv'
        · intro f hf
          have hf' : g ≠ f ∧ alLookup rest f = none := by
            by_cases hfg : g = f <;> simp_all [alLookup]
          rw [hb f hf'.2, alLookup_alInsert_ne g f _ _ hf'.1]
      case _ e hpv =>
        exact absurd h (by simp)

/-- Helper: each class's custom-processor table has distinct keys. -/
theorem customProcessing_keys_nodup (c : IBClass) :
    ((customProcessing c).map Prod.fst).Nodup := by
  cases c <;> simp [customProcessing]

/-- C9 (confirmed): `from_dict` mutates the caller's payload in place —
every present field with a registered custom processor ends up holding
the processor's (successful) result before the instance is built, every
other entry is untouched, and the instance is then constructed from the
mutated payload through version dispatch. -/
theorem infoblox_C9 (c : IBClass) (d d2 : Attrs) (c2 : IBClass) (attrs : Attrs)
    (h : fromDictIB c d = .ok (d2, c2, attrs)) :
    (∀ f p, alLookup (customProcessing c) f = some p →
      ∀ v, alLookup d f = some v → ∃ w, p v = .ok w ∧ alLookup d2 f = some w) ∧
    (∀ f, alLookup (customProcessing c) f = none →
      alLookup d2 f = alLookup d f) ∧
    c2 = get_class_from_args c d2 ∧
    initIB c2 d2 = .ok attrs := by
  unfold fromDictIB at h
  split at h
  case _ e hp =>
    exact absurd h (by simp)
  case _ dd hp =>
    split at h
    case _ a hi =>
      have h4 := Except.ok.inj h
      simp only [Prod.mk.injEq] at h4
      obtain ⟨h5, h6, h7⟩ := h4
      subst h5
      subst h7
      obtain ⟨ha, hb⟩ := processDictGo_spec (customProcessing c)
        (customProcessing_keys_nodup c) d dd hp
      exact ⟨ha, hb, h6.symm, h6 ▸ hi⟩
    case _ e hi =>
      exact absurd h (by simp)

/-- C9, witness: a Network payload whose `members` entry is replaced in
place by the built AnyMember list while the unprocessed `network` entry
and the rest of the payload stay untouched. -/
theorem infoblox_C9_witness :
    fromDictIB .Network
      [("members", .pyList [.pyDict [("name", .pyStr "m1")]]),
       ("network", .pyStr "10.0.0.0/24")] =
      .ok ([("members", .pyList [.pySub .anyMember
              [("_struct", .pyNone), ("name", .pyStr "m1"),
               ("ipv4addr", .pyNone), ("ipv6addr", .pyNone)]]),
            ("network", .pyStr "10.0.0.0/24")],
           .NetworkV4,
           [("network_view", .pyNone), ("network", .pyStr "10.0.0.0/24"),
            ("template", .pyNone), ("options", .pyNone),
            ("nameservers", .pyNone),
            ("members", .pyList [.pySub .anyMember
              [("_struct", .pyNone), ("name", .pyStr "m1"),
               ("ipv4addr", .pyNone), ("ipv6addr", .pyNone)]]),
            ("gateway_ip", .pyNone), ("extattrs", .pyNone),
            ("_ref", .pyNone)]) ∧
    (∀ f, alLookup (customProcessing .Network) f = none →
      alLookup [("members", PyVal.pyList [.pySub .anyMember
          [("_struct", .pyNone), ("name", .pyStr "m1"),
           ("ipv4addr", .pyNone), ("ipv6addr", .pyNone)]]),
        ("network", PyVal.pyStr "10.0.0.0/24")] f =
      alLookup [("members", PyVal.pyList [.pyDict [("name", .pyStr "m1")]]),
        ("network", PyVal.pyStr "10.0.0.0/24")] f) :=
  ⟨rfl,
   (infoblox_C9 .Network
     [("members", .pyList [.pyDict [("name", .pyStr "m1")]]),
      ("network", .pyStr "10.0.0.0/24")]
     [("members", .pyList [.pySub .anyMember
        [("_struct", .pyNone), ("name", .pyStr "m1"),
         ("ipv4addr", .pyNone), ("ipv6addr", .pyNone)]]),
      ("network", .pyStr "10.0.0.0/24")]
     .NetworkV4
     [("network_view", .pyNone), ("network", .pyStr "10.0.0.0/24"),
      ("template", .pyNone), ("options", .pyNone),
      ("nameservers", .pyNone),
      ("members", .pyList [.pySub .anyMember
        [("_struct", .pyNone), ("name", .pyStr "m1"),
         ("ipv4addr", .pyNone), ("ipv6addr", .pyNone)]]),
      ("gateway_ip", .pyNone), ("extattrs", .pyNone),
      ("_ref", .pyNone)] rfl).2.1⟩

/-- C4 (confirmed): for every dispatch-required family and every
address-bearing argument name, a `10.0.0.1` value selects the v4 leaf,
an `fe80::1` value selects the v6 leaf, absence of every
address-bearing name falls back to the v4 leaf, and a class whose
`_ip_version` is already set returns itself without scanning. -/
theorem infoblox_C4 (c : IBClass) (hc : c ∈ dispatchFamilies)
    (n : String) (hn : n ∈ ["ip", "cidr", "start_ip", "ip_address"]) :
    get_class_from_args c [(n, .pyStr "10.0.0.1")] = ibV4Class c ∧
    get_class_from_args c [(n, .pyStr "fe80::1")] = ibV6Class c ∧
    (∀ kwargs : Attrs,
      alLookup kwargs "ip" = none → alLookup kwargs "cidr" = none →
      alLookup kwargs "start_ip" = none → alLookup kwargs "ip_address" = none →
      get_class_from_args c kwargs = ibV4Class c) ∧
    (∀ (c' : IBClass) (t : IpTag) (kwargs : Attrs),
      ibIpVersion c' = some t → get_class_from_args c' kwargs = c') := by
  refine ⟨?_, ?_, ?_, ?_⟩
  · fin_cases hc <;> fin_cases hn <;> rfl
  · fin_cases hc <;> fin_cases hn <;> rfl
  · intro kwargs h1 h2 h3 h4
    fin_cases hc <;>
      simp [get_class_from_args, ibIpVersion, scanAddrFields, h1, h2, h3, h4]
  · intro c' t kwargs h
    simp [get_class_from_args, h]

/-- C4, witness: the Network family dispatched on the `ip` argument. -/
theorem infoblox_C4_witness :
    (IBClass.Network ∈ dispatchFamilies) ∧
    ("ip" ∈ ["ip", "cidr", "start_ip", "ip_address"]) ∧
    get_class_from_args .Network [("ip", .pyStr "10.0.0.1")] = .NetworkV4 ∧
    get_class_from_args .Network [("ip", .pyStr "fe80::1")] = .NetworkV6 := by
  have h := infoblox_C4 .Network (by simp [dispatchFamilies]) "ip" (by simp)
  exact ⟨by simp [dispatchFamilies], by simp, h.1, h.2.1⟩

/-- C10 (confirmed): the version scan probes `ip`, `cidr`, `start_ip`,
`ip_address` in that fixed order, the first present name alone decides
the variant, and any first value whose classified family is not IPv6
(unparseable text included) selects the v4 leaf. -/
theorem infoblox_C10 (c : IBClass) (hc : c ∈ dispatchFamilies) (kwargs : Attrs) :
    (∀ v, alLookup kwargs "ip" = some v →
      get_class_from_args c kwargs =
        if determine_ip_version v = 6 then ibV6Class c else ibV4Class c) ∧
    (alLookup kwargs "ip" = none → ∀ v, alLookup kwargs "cidr" = some v →
      get_class_from_args c kwargs =
        if determine_ip_version v = 6 then ibV6Class c else ibV4Class c) ∧
    (alLookup kwargs "ip" = none → alLookup kwargs "cidr" = none →
      ∀ v, alLookup kwargs "start_ip" = some v →
      get_class_from_args c kwargs =
        if determine_ip_version v = 6 then ibV6Class c else ibV4Class c) ∧
    (alLookup kwargs "ip" = none → alLookup kwargs "cidr" = none →
      alLookup kwargs "start_ip" = none →
      ∀ v, alLookup kwargs "ip_address" = some v →
      get_class_from_args c kwargs =
        if determine_ip_version v = 6 then ibV6Class c else ibV4Class c) ∧
    (∀ v, alLookup kwargs "ip" = some v → determine_ip_version v ≠ 6 →
      get_class_from_args c kwargs = ibV4Class c) := by
  have hver : ibIpVersion c = none := by fin_cases hc <;> rfl
  refine ⟨?_, ?_, ?_, ?_, ?_⟩
  · intro v hv
    simp [get_class_from_args, hver, scanAddrFields, hv]
  · intro h1 v hv
    simp [get_class_from_args, hver, scanAddrFields, h1, hv]
  · intro h1 h2 v hv
    simp [get_class_from_args, hver, scanAddrFields, h1, h2, hv]
  · intro h1 h2 h3 v hv
    simp [get_class_from_args, hver, scanAddrFields, h1, h2, h3, hv]
  · intro v hv h6
    simp [get_class_from_args, hver, scanAddrFields, hv, h6]

/-- C10, witness: with both `ip` (unparseable text) and `cidr` (an IPv6
prefix) supplied, the earlier `ip` name alone decides, and its non-IPv6
classification selects the v4 leaf. -/
theorem infoblox_C10_witness :
    (IBClass.Network ∈ dispatchFamilies) ∧
    alLookup [("ip", PyVal.pyStr "not-an-address"),
              ("cidr", PyVal.pyStr "fe80::/64")] "ip" =
      some (.pyStr "not-an-address") ∧
    determine_ip_version (.pyStr "not-an-address") ≠ 6 ∧
    get_class_from_args .Network
      [("ip", .pyStr "not-an-address"), ("cidr", .pyStr "fe80::/64")] =
      .NetworkV4 := by
  refine ⟨by simp [dispatchFamilies], rfl, by decide, ?_⟩
  exact (infoblox_C10 .Network (by simp [dispatchFamilies]) _).2.2.2.2 _ rfl (by decide)

/-- Helper: `fetch` only issues read calls. -/
theorem fetchIB_no_writes (conn : Connector) (c : IBClass) (attrs : Attrs) :
    ((fetchIB conn c attrs).1).filter isWriteCall = [] := by
  unfold fetchIB fetchSearch
  by_cases h : pyTruthy (refOf attrs) <;> simp only [h, if_true, if_false, Bool.false_eq_true, ite_false, ite_true]
  · cases conn.getObjectByRef (refOf attrs) (ibReturnFields c) with
    | some d => simp [isWriteCall]
    | none =>
      cases conn.getObjectByType (ibType c) (toDictIB c attrs .only)
          (ibReturnFields c) <;> simp [isWriteCall]
  · cases conn.getObjectByType (ibType c) (toDictIB c attrs .only)
        (ibReturnFields c) <;> simp [isWriteCall]

/-- C3 (confirmed): when `create(check_if_exists=True)`'s initial fetch
finds a match whose merged payload carries a truthy reference handle,
then with `update_if_exists=False` create issues no write call and
returns the already-fetched merged instance, and with
`update_if_exists=True` it issues exactly one `update_object` call
carrying the exclude-search serialization of the merged instance and no
`create_object` call. -/
theorem infoblox_C3 (conn : Connector) (c : IBClass) (kwargs : Attrs)
    (attrs0 attrs1 : Attrs) (calls1 : List ConnCall)
    (h0 : initIB (get_class_from_args c kwargs) kwargs = .ok attrs0)
    (h1 : fetchIB conn (get_class_from_args c kwargs) attrs0 =
      (calls1, .ok (true, attrs1)))
    (h2 : pyTruthy (refOf attrs1) = true) :
    (createIB conn c true false kwargs =
      (calls1, .ok (some (get_class_from_args c kwargs, attrs1)))) ∧
    calls1.filter isWriteCall = [] ∧
    (createIB conn c true true kwargs =
      (calls1 ++ [ConnCall.updateObj (refOf attrs1)
          (toDictIB (get_class_from_args c kwargs) attrs1 .exclude)
          (ibReturnFields (get_class_from_args c kwargs))],
       objectFromReply (get_class_from_args c kwargs)
         (conn.updateObject (refOf attrs1)
           (toDictIB (get_class_from_args c kwargs) attrs1 .exclude)
           (ibReturnFields (get_class_from_args c kwargs))))) ∧
    ((createIB conn c true true kwargs).1).filter isWriteCall =
      [ConnCall.updateObj (refOf attrs1)
        (toDictIB (get_class_from_args c kwargs) attrs1 .exclude)
        (ibReturnFields (get_class_from_args c kwargs))] := by
  have hw : calls1.filter isWriteCall = [] := by
    have hnw := fetchIB_no_writes conn (get_class_from_args c kwargs) attrs0
    rw [h1] at hnw
    exact hnw
  have hA : createIB conn c true false kwargs =
      (calls1, .ok (some (get_class_from_args c kwargs, attrs1))) := by
    simp only [createIB]
    rw [h0]
    simp only [if_true, ite_true]
    rw [h1]
    simp
  have hB : createIB conn c true true kwargs =
      (calls1 ++ [ConnCall.updateObj (refOf attrs1)
          (toDictIB (get_class_from_args c kwargs) attrs1 .exclude)
          (ibReturnFields (get_class_from_args c kwargs))],
       objectFromReply (get_class_from_args c kwargs)
         (conn.updateObject (refOf attrs1)
           (toDictIB (get_class_from_args c kwargs) attrs1 .exclude)
           (ibReturnFields (get_class_from_args c kwargs)))) := by
    simp only [createIB]
    rw [h0]
    simp only [if_true, ite_true]
    rw [h1]
    simp [h2]
  refine ⟨hA, hw, hB, ?_⟩
  rw [hB]
  simp [List.filter_append, hw, isWriteCall]

/-- C3, witness: a NetworkView whose existence search finds a match
carrying a reference handle; the no-update run returns it with only the
read call issued. -/
theorem infoblox_C3_witness :
    initIB (get_class_from_args .NetworkView [("name", PyVal.pyStr "default")])
      [("name", PyVal.pyStr "default")] =
      .ok [("name", .pyStr "default"), ("extattrs", .pyNone),
           ("_ref", .pyNone), ("is_default", .pyNone)] ∧
    fetchIB connNetworkView
      (get_class_from_args .NetworkView [("name", PyVal.pyStr "default")])
      [("name", .pyStr "default"), ("extattrs", .pyNone),
       ("_ref", .pyNone), ("is_default", .pyNone)] =
      ([.getByType (some "networkview") [("name", .pyStr "default")] []],
       .ok (true,
         [("name", .pyStr "default"), ("extattrs", .pyNone),
          ("_ref", .pyStr "networkview/ZG5z:default/true"),
          ("is_default", .pyNone)])) ∧
    pyTruthy (refOf
      [("name", .pyStr "default"), ("extattrs", .pyNone),
       ("_ref", .pyStr "networkview/ZG5z:default/true"),
       ("is_default", .pyNone)]) = true ∧
    createIB connNetworkView .NetworkView true false
      [("name", PyVal.pyStr "default")] =
      ([.getByType (some "networkview") [("name", .pyStr "default")] []],
       .ok (some (get_class_from_args .NetworkView [("name", PyVal.pyStr "default")],
         [("name", .pyStr "default"), ("extattrs", .pyNone),
          ("_ref", .pyStr "networkview/ZG5z:default/true"),
          ("is_default", .pyNone)]))) :=
  ⟨rfl, rfl, by decide,
   (infoblox_C3 connNetworkView .NetworkView [("name", PyVal.pyStr "default")]
     [("name", .pyStr "default"), ("extattrs", .pyNone),
      ("_ref", .pyNone), ("is_default", .pyNone)]
     [("name", .pyStr "default"), ("extattrs", .pyNone),
      ("_ref", .pyStr "networkview/ZG5z:default/true"),
      ("is_default", .pyNone)]
     [.getByType (some "networkview") [("name", .pyStr "default")] []]
     rfl rfl (by decide)).1⟩

/-- C5, counterexample: on `HostRecordV4` the alias `ip` maps to the
property-intercepted field `ipv4addrs`; constructing with
`ip="10.0.0.5"` routes the value through `_ip_setter`, which fills only
the shadow hint slot, so reading the alias afterwards raises
AttributeError instead of yielding the value. -/
theorem infoblox_C5_counterexample :
    (("ip", "ipv4addrs") ∈ ibRemap .HostRecordV4) ∧
    initIB .HostRecordV4 [("ip", .pyStr "10.0.0.5")] =
      .ok [("ipv4addr", .pyStr "10.0.0.5"), ("view", .pyNone),
           ("extattrs", .pyNone), ("name", .pyNone), ("_ref", .pyNone)] ∧
    instGetAttr .HostRecordV4
      [("ipv4addr", .pyStr "10.0.0.5"), ("view", .pyNone),
       ("extattrs", .pyNone), ("name", .pyNone), ("_ref", .pyNone)] "ip" =
      .error .attributeError :=
  ⟨by decide, rfl, rfl⟩

/-- C5 (amended): for every alias whose canonical field is a plain
storage slot (all aliases except host-record `ip → ipvXaddrs` and
fixed-address `ipvXaddr → ip`, which are property-intercepted),
constructing with the alias stores the value in the canonical slot,
reading either name yields it, and writing through the canonical field
updates what both names read — one physical slot shared at init, read
and write. -/
theorem infoblox_C5_amended (p : IBClass × String × String)
    (hp : p ∈ plainAliases) (v w : PyVal) :
    ∃ attrs, initIB p.1 [(p.2.1, v)] = .ok attrs ∧
      instGetAttr p.1 attrs p.2.1 = .ok v ∧
      instGetAttr p.1 attrs p.2.2 = .ok v ∧
      ∃ attrs2, instSetAttr p.1 attrs p.2.2 w = .ok attrs2 ∧
        instGetAttr p.1 attrs2 p.2.1 = .ok w ∧
        instGetAttr p.1 attrs2 p.2.2 = .ok w := by
  fin_cases hp <;>
    exact ⟨_, rfl, rfl, rfl, _, rfl, rfl, rfl⟩

/-- C5, witness: the amended theorem at the Network `cidr → network`
alias. -/
theorem infoblox_C5_witness :
    ((IBClass.NetworkV4, "cidr", "network") ∈ plainAliases) ∧
    (∃ attrs,
      initIB .NetworkV4 [("cidr", PyVal.pyStr "10.0.0.0/24")] = .ok attrs ∧
      instGetAttr .NetworkV4 attrs "cidr" = .ok (.pyStr "10.0.0.0/24") ∧
      instGetAttr .NetworkV4 attrs "network" = .ok (.pyStr "10.0.0.0/24") ∧
      ∃ attrs2,
        instSetAttr .NetworkV4 attrs "network" (.pyStr "10.0.2.0/24") =
          .ok attrs2 ∧
        instGetAttr .NetworkV4 attrs2 "cidr" = .ok (.pyStr "10.0.2.0/24") ∧
        instGetAttr .NetworkV4 attrs2 "network" = .ok (.pyStr "10.0.2.0/24")) :=
  ⟨by decide,
   infoblox_C5_amended (.NetworkV4, "cidr", "network") (by decide) _ _⟩

/-- C6, counterexample: `DNSZone` declares `_ref` among its `_fields`,
so its equality compares the reference handle — two zones identical in
every other declared field but with different handles are unequal,
against the claim that the reference handle never influences
equality. -/
theorem infoblox_C6_counterexample :
    ("_ref" ∈ ibShadow .DNSZone) ∧
    eqIB
      ⟨.DNSZone, [("_ref", .pyStr "zone/1"), ("fqdn", .pyStr "a.com"),
        ("view", .pyNone), ("extattrs", .pyNone), ("zone_format", .pyNone),
        ("ns_group", .pyNone), ("prefix", .pyNone), ("grid_primary", .pyNone),
        ("grid_secondaries", .pyNone)]⟩
      ⟨.DNSZone, [("_ref", .pyStr "zone/2"), ("fqdn", .pyStr "a.com"),
        ("view", .pyNone), ("extattrs", .pyNone), ("zone_format", .pyNone),
        ("ns_group", .pyNone), ("prefix", .pyNone), ("grid_primary", .pyNone),
        ("grid_secondaries", .pyNone)]⟩ = .ok false ∧
    eqIB
      ⟨.DNSZone, [("_ref", .pyStr "zone/1"), ("fqdn", .pyStr "a.com"),
        ("view", .pyNone), ("extattrs", .pyNone), ("zone_format", .pyNone),
        ("ns_group", .pyNone), ("prefix", .pyNone), ("grid_primary", .pyNone),
        ("grid_secondaries", .pyNone)]⟩
      ⟨.DNSZone, [("_ref", .pyStr "zone/1"), ("fqdn", .pyStr "a.com"),
        ("view", .pyNone), ("extattrs", .pyNone), ("zone_format", .pyNone),
        ("ns_group", .pyNone), ("prefix", .pyNone), ("grid_primary", .pyNone),
        ("grid_secondaries", .pyNone)]⟩ = .ok true := by
  refine ⟨by decide, ?_, ?_⟩ <;>
    simp [eqIB, isSubclassOf, ibParent, eqFieldsGo, instGetAttr,
          instGetAttrPlain, propGetIB, ibFields, ibRemap, pyEq]

/-- Helper: the declared-field comparison loop returns True exactly
when every field in the list reads successfully on both instances and
the two values compare equal. -/
theorem eqFieldsGo_true_iff (x y : IBInst) (L : List String) :
    eqFieldsGo x y L = .ok true ↔
      ∀ f, f ∈ L → ∃ a b, instGetAttr x.cls x.attrs f = .ok a ∧
        instGetAttr y.cls y.attrs f = .ok b ∧ pyEq a b = true := by
  induction L with
  | nil => simp [eqFieldsGo]
  | cons f fs ih =>
    constructor
    · intro h
      simp only [eqFieldsGo] at h
      split at h
      case _ e hx => exact absurd h (by simp)
      case _ a hx =>
        split at h
        case _ e hy => exact absurd h (by simp)
        case _ b hy =>
          by_cases hab : pyEq a b = true
          · rw [if_pos hab] at h
            intro g hg
            rcases List.mem_cons.mp hg with rfl | hg2
            · exact ⟨a, b, hx, hy, hab⟩
            · exact (ih.mp h) g hg2
          · rw [if_neg hab] at h
            exact absurd h (by simp)
    · intro hall
      obtain ⟨a, b, hx, hy, hab⟩ := hall f (by simp)
      simp only [eqFieldsGo, hx, hy, hab, if_true]
      exact ih.mpr (fun g hg => hall g (by simp [hg]))

/-- C6 (amended): two instances are equal iff the second is an instance
of the first's concrete class and every declared field of that class
reads successfully on both and compares equal (proved as a
biconditional); an instance of a non-subclass variant — in particular
the other address family's leaf — is never equal; and no shadow field
that is not also declared can influence equality: the enumerated
(class, shadow-only slot) pairs are certified complete, and inserting
any such slot on either side leaves equality unchanged.  DNSZone
declares `_ref` among its fields, so there the handle does influence
equality. -/
theorem infoblox_C6_amended :
    (∀ x y : IBInst,
      eqIB x y = .ok true ↔
        (isSubclassOf y.cls x.cls = true ∧
         ∀ f, f ∈ ibFields x.cls →
           ∃ a b, instGetAttr x.cls x.attrs f = .ok a ∧
             instGetAttr y.cls y.attrs f = .ok b ∧ pyEq a b = true)) ∧
    (∀ x y : IBInst, isSubclassOf y.cls x.cls = false → eqIB x y = .ok false) ∧
    (∀ a1 a2 : Attrs,
      eqIB ⟨.NetworkV4, a1⟩ ⟨.NetworkV6, a2⟩ = .ok false ∧
      eqIB ⟨.HostRecordV4, a1⟩ ⟨.HostRecordV6, a2⟩ = .ok false) ∧
    (∀ c : IBClass, ∀ s ∈ ibShadow c,
      s ∈ ibFields c ∨ (c, s) ∈ shadowOnlyPairs) ∧
    (∀ p, p ∈ shadowOnlyPairs → ∀ (a1 a2 : Attrs) (r1 r2 : PyVal),
      eqIB ⟨p.1, alInsert p.2 r1 a1⟩ ⟨p.1, alInsert p.2 r2 a2⟩ =
        eqIB ⟨p.1, a1⟩ ⟨p.1, a2⟩) := by
  refine ⟨?_, ?_, ?_, ?_, ?_⟩
  · intro x y
    unfold eqIB
    by_cases hs : isSubclassOf y.cls x.cls = true
    · rw [if_pos hs, eqFieldsGo_true_iff]
      simp [hs]
    · rw [if_neg hs]
      simp [hs]
  · intro x y h
    simp [eqIB, h]
  · intro a1 a2
    exact ⟨rfl, rfl⟩
  · intro c
    cases c <;> decide
  · intro p hp a1 a2 r1 r2
    fin_cases hp <;>
      simp [eqIB, eqFieldsGo, isSubclassOf, ibParent, ibFields, instGetAttr,
            instGetAttrPlain, propGetIB, ibRemap, alLookup_alInsert]

/-- C6, witness: the amended theorem's shadow-slot insensitivity
applied to two concrete NetworkV4 instances that differ only in their
reference handles. -/
theorem infoblox_C6_witness :
    ((IBClass.NetworkV4, "_ref") ∈ shadowOnlyPairs) ∧
    eqIB ⟨.NetworkV4, alInsert "_ref" (.pyStr "network/1")
            [("network", .pyStr "10.0.0.0/24")]⟩
         ⟨.NetworkV4, alInsert "_ref" (.pyStr "network/2")
            [("network", .pyStr "10.0.0.0/24")]⟩ =
      eqIB ⟨.NetworkV4, [("network", .pyStr "10.0.0.0/24")]⟩
           ⟨.NetworkV4, [("network", .pyStr "10.0.0.0/24")]⟩ :=
  ⟨by decide,
   infoblox_C6_amended.2.2.2.2 (.NetworkV4, "_ref") (by decide)
     [("network", .pyStr "10.0.0.0/24")]
     [("network", .pyStr "10.0.0.0/24")]
     (.pyStr "network/1") (.pyStr "network/2")⟩

/-- Helper: `hasattr` on a plain attribute (no property, no alias)
reduces to presence in the instance dictionary. -/
theorem ibHasattr_plain (c : IBClass) (a : Attrs) (n : String)
    (h1 : propGetIB c a n = none) (h2 : alLookup (ibRemap c) n = none) :
    ibHasattr c a n = (alLookup a n).isSome := by
  unfold ibHasattr instGetAttr instGetAttrPlain
  rw [h1]
  cases alLookup a n with
  | some v => simp
  | none => simp [h2]

/-- Helper: characterization of the `__init__` field loop when every
touched name writes and reads a plain slot: the loop succeeds, and
afterwards each visited field holds its supplied value or None, while
unvisited keys are untouched. -/
theorem plainInitGo_spec (c : IBClass) (mapped : Attrs) (L : List String)
    (hset : ∀ (a : Attrs) (n : String) (v : PyVal), n ∈ L →
      instSetAttr c a n v = .ok (alInsert n v a))
    (hhas : ∀ (a : Attrs) (n : String), n ∈ L →
      ibHasattr c a n = (alLookup a n).isSome) :
    ∀ (L' : List String), (∀ n, n ∈ L' → n ∈ L) → ∀ attrs : Attrs,
      ∃ final, initIBGo c mapped attrs L' = .ok final ∧
        ∀ k, alLookup final k =
          if k ∈ L' then
            some ((alLookup mapped k).getD ((alLookup attrs k).getD .pyNone))
          else alLookup attrs k := by
  intro L'
  induction L' with
  | nil =>
    intro _ attrs
    exact ⟨attrs, rfl, fun k => by simp⟩
  | cons f fs ih =>
    intro hsub attrs
    have hfL : f ∈ L := hsub f (by simp)
    have hsub' : ∀ n, n ∈ fs → n ∈ L := fun n hn => hsub n (by simp [hn])
    cases hm : alLookup mapped f with
    | some v =>
      obtain ⟨final, hrun, hphi⟩ := ih hsub' (alInsert f v attrs)
      refine ⟨final, ?_, ?_⟩
      · simp only [initIBGo, hm, hset attrs f v hfL]
        exact hrun
      · intro k
        rw [hphi k]
        by_cases hkf : k = f
        · subst hkf
          by_cases hkfs : k ∈ fs <;> simp [hkfs, hm, alLookup_alInsert]
        · have hne : f ≠ k := fun h => hkf h.symm
          by_cases hkfs : k ∈ fs
          · simp [hkfs, alLookup_alInsert_ne f k v attrs hne]
          · have hnot : ¬ (k ∈ f :: fs) := by simp [hkf, hkfs]
            simp [hkfs, hnot, alLookup_alInsert_ne f k v attrs hne]
    | none =>
      cases ha : alLookup attrs f with
      | some w =>
        obtain ⟨final, hrun, hphi⟩ := ih hsub' attrs
        refine ⟨final, ?_, ?_⟩
        · simp only [initIBGo, hm, hhas attrs f hfL, ha, Option.isSome_some,
            if_true]
          exact hrun
        · intro k
          rw [hphi k]
          by_cases hkf : k = f
          · subst hkf
            by_cases hkfs : k ∈ fs <;> simp [hkfs, hm, ha]
          · by_cases hkfs : k ∈ fs
            · simp [hkfs]
            · have hnot : ¬ (k ∈ f :: fs) := by simp [hkf, hkfs]
              simp [hkfs, hnot]
      | none =>
        obtain ⟨final, hrun, hphi⟩ := ih hsub' (alInsert f .pyNone attrs)
        refine ⟨final, ?_, ?_⟩
        · simp only [initIBGo, hm, hhas attrs f hfL, ha, Option.isSome_none,
            Bool.false_eq_true, if_false, hset attrs f PyVal.pyNone hfL]
          exact hrun
        · intro k
          rw [hphi k]
          by_cases hkf : k = f
          · subst hkf
            by_cases hkfs : k ∈ fs <;> simp [hkfs, hm, ha, alLookup_alInsert]
          · have hne : f ≠ k := fun h => hkf h.symm
            by_cases hkfs : k ∈ fs
            · simp [hkfs, alLookup_alInsert_ne f k _ attrs hne]
            · have hnot : ¬ (k ∈ f :: fs) := by simp [hkf, hkfs]
              simp [hkfs, hnot, alLookup_alInsert_ne f k _ attrs hne]

/-- Helper: possible outcome of construction for a class whose fields
are all plain slots — success, with each declared and shadow field
holding its supplied value or the absent state. -/
theorem plainInit_main (c : IBClass) (kwargs mapped : Attrs)
    (hmap : remapFields (ibClsName c) (ibRemap c) (ibFields c) (ibShadow c)
      kwargs = .ok mapped)
    (hset : ∀ (a : Attrs) (n : String) (v : PyVal),
      n ∈ ibFields c ++ ibShadow c →
      instSetAttr c a n v = .ok (alInsert n v a))
    (hhas : ∀ (a : Attrs) (n : String), n ∈ ibFields c ++ ibShadow c →
      ibHasattr c a n = (alLookup a n).isSome)
    (hget : ∀ (a : Attrs) (n : String), n ∈ ibFields c ++ ibShadow c →
      propGetIB c a n = none) :
    ∃ attrs, initIB c kwargs = .ok attrs ∧
      ∀ f, f ∈ ibFields c ++ ibShadow c →
        instGetAttr c attrs f = .ok ((alLookup mapped f).getD .pyNone) := by
  obtain ⟨final, hrun, hphi⟩ := plainInitGo_spec c mapped
    (ibFields c ++ ibShadow c) hset hhas (ibFields c ++ ibShadow c)
    (fun n hn => hn) []
  refine ⟨final, ?_, ?_⟩
  · unfold initIB
    rw [hmap]
    exact hrun
  · intro f hf
    have hk := hphi f
    rw [if_pos hf] at hk
    simp only [alLookup_nil, Option.getD_none] at hk
    unfold instGetAttr instGetAttrPlain
    rw [hget final f hf, hk]

/-- Helper: the `_remap_fields` loop fails with the unknown-parameter
ValueError whenever the kwargs contain a key that is neither an alias,
a declared field nor a shadow field, whatever was accumulated so
far. -/
theorem remapFieldsGo_bad (clsName : String) (remap : List (String × String))
    (fields shadow : List String) (k : String)
    (hk1 : alLookup remap k = none) (hk2 : k ∉ fields) (hk3 : k ∉ shadow) :
    ∀ (kwargs acc : Attrs), alContains kwargs k = true →
      ∃ msg, remapFieldsGo clsName remap fields shadow acc kwargs =
        .error (.valueError msg) := by
  intro kwargs
  induction kwargs with
  | nil =>
    intro acc hc
    exact absurd hc (by simp [alContains, alLookup])
  | cons h t ih =>
    obtain ⟨k0, v0⟩ := h
    intro acc hc
    by_cases hk0 : k0 = k
    · subst hk0
      exact ⟨"Unknown parameter " ++ k0 ++ " for class " ++ clsName,
        by simp [remapFieldsGo, hk1, hk2, hk3]⟩
    · have hc' : alContains t k = true := by
        simpa [alContains, alLookup, hk0] using hc
      cases hr : alLookup remap k0 with
      | some f =>
        obtain ⟨msg, hmsg⟩ := ih (alInsert f v0 acc) hc'
        exact ⟨msg, by simp [remapFieldsGo, hr, hmsg]⟩
      | none =>
        by_cases hcf : k0 ∈ fields ∨ k0 ∈ shadow
        · obtain ⟨msg, hmsg⟩ := ih (alInsert k0 v0 acc) hc'
          exact ⟨msg, by simp [remapFieldsGo, hr, hcf, hmsg]⟩
        · exact ⟨"Unknown parameter " ++ k0 ++ " for class " ++ clsName,
            by simp [remapFieldsGo, hr, hcf]⟩

/-- C8, counterexample: `HostRecordV4(ip=5)` — the argument resolves
through the alias table to the declared field `ipv4addrs`, yet
construction still fails, because the property setter behind that field
rejects the malformed value; the claim that construction succeeds
whenever every argument resolves is therefore false. -/
theorem infoblox_C8_counterexample :
    remapFields (ibClsName .HostRecordV4) (ibRemap .HostRecordV4)
      (ibFields .HostRecordV4) (ibShadow .HostRecordV4) [("ip", .pyInt 5)] =
      .ok [("ipv4addrs", .pyInt 5)] ∧
    initIB .HostRecordV4 [("ip", .pyInt 5)] =
      .error (.valueError (ipSetterMsg (.pyInt 5))) :=
  ⟨rfl, rfl⟩

/-- C8 (amended): a keyword argument resolving (directly or via the
alias table) to neither a declared nor a shadow field makes
construction fail with the unknown-parameter ValueError, atomically —
the alias-resolution pass runs before any field assignment, so a
resolution error yields no partial object; if every argument resolves,
construction succeeds for every class whose fields are plain storage
slots (all classes except the host-record and fixed-address leaves),
with every unsupplied declared and shadow field reading as the absent
state; the host-record leaves can additionally reject a resolving but
malformed address value, and fixed-address property setters can derive
unsupplied fields. -/
theorem infoblox_C8_amended :
    (∀ (c : IBClass) (kwargs : Attrs) (e : PyErr),
      remapFields (ibClsName c) (ibRemap c) (ibFields c) (ibShadow c) kwargs =
        .error e →
      initIB c kwargs = .error e) ∧
    (∀ (c : IBClass) (kwargs : Attrs) (k : String),
      alLookup (ibRemap c) k = none → k ∉ ibFields c → k ∉ ibShadow c →
      alContains kwargs k = true →
      ∃ msg, remapFields (ibClsName c) (ibRemap c) (ibFields c) (ibShadow c)
        kwargs = .error (.valueError msg)) ∧
    (∀ c, c ∈ plainClasses → ∀ (kwargs mapped : Attrs),
      remapFields (ibClsName c) (ibRemap c) (ibFields c) (ibShadow c) kwargs =
        .ok mapped →
      ∃ attrs, initIB c kwargs = .ok attrs ∧
        ∀ f, f ∈ ibFields c ++ ibShadow c →
          instGetAttr c attrs f = .ok ((alLookup mapped f).getD .pyNone)) := by
  refine ⟨?_, ?_, ?_⟩
  · intro c kwargs e h
    unfold initIB
    rw [h]
  · intro c kwargs k hk1 hk2 hk3 hc
    exact remapFieldsGo_bad (ibClsName c) (ibRemap c) (ibFields c)
      (ibShadow c) k hk1 hk2 hk3 kwargs [] hc
  · intro c hc kwargs mapped hmap
    fin_cases hc <;>
      exact plainInit_main _ _ _ hmap
        (by intro a n v hn; fin_cases hn <;> rfl)
        (by intro a n hn; fin_cases hn <;> exact ibHasattr_plain _ _ _ rfl rfl)
        (by intro a n hn; fin_cases hn <;> rfl)

/-- C8, witness: the amended theorem's success half at a NetworkView
construction, and its failure half at an unresolvable argument. -/
theorem infoblox_C8_witness :
    (IBClass.NetworkView ∈ plainClasses) ∧
    remapFields (ibClsName .NetworkView) (ibRemap .NetworkView)
      (ibFields .NetworkView) (ibShadow .NetworkView)
      [("name", .pyStr "default")] = .ok [("name", .pyStr "default")] ∧
    (∃ attrs, initIB .NetworkView [("name", .pyStr "default")] = .ok attrs ∧
      ∀ f, f ∈ ibFields .NetworkView ++ ibShadow .NetworkView →
        instGetAttr .NetworkView attrs f =
          .ok ((alLookup [("name", PyVal.pyStr "default")] f).getD .pyNone)) ∧
    (∃ msg, remapFields (ibClsName .NetworkView) (ibRemap .NetworkView)
      (ibFields .NetworkView) (ibShadow .NetworkView)
      [("bogus", .pyInt 1)] = .error (.valueError msg)) :=
  ⟨by decide, rfl,
   infoblox_C8_amended.2.2 .NetworkView (by decide) _ _ rfl,
   infoblox_C8_amended.2.1 .NetworkView [("bogus", .pyInt 1)] "bogus"
     rfl (by decide) (by decide) rfl⟩
